import Mathlib

/-! Python-value model: the untyped values flowing through `nest.py`
(strings, ints, lists, dicts with string keys, `None`).  `err` marks
points where the Python code would raise an exception. -/

inductive PyVal where
  | str (s : String)
  | num (n : Int)
  | vlist (xs : List PyVal)
  | vdict (kvs : List (String × PyVal))
  | pyNone
  | err (msg : String)
deriving Repr

namespace PyVal

/-- First-match association lookup (Python dict keys are unique, so this
matches `d[k]` / `d.get(k)`). -/
def lookupKv : List (String × PyVal) → String → Option PyVal
  | [], _ => none
  | (k, v) :: t, key => if k = key then some v else lookupKv t key

/-- `d.get(k)` with Python `None` as the default. -/
def getKv (kvs : List (String × PyVal)) (key : String) : PyVal :=
  match lookupKv kvs key with
  | some v => v
  | none => .pyNone

def hasKey (kvs : List (String × PyVal)) (key : String) : Bool :=
  match lookupKv kvs key with
  | some _ => true
  | none => false

/-- Python truthiness test `not v` (negated): falsy values. -/
def pyFalsy : PyVal → Bool
  | .pyNone => true
  | .str s => s = ""
  | .num n => n = 0
  | .vlist xs => xs.isEmpty
  | .vdict kvs => kvs.isEmpty
  | .err _ => false

/-- `set(node.keys()) <= {"left", "rest"}`. -/
def keysLeftRestOnly : List (String × PyVal) → Bool
  | [] => true
  | (k, _) :: t => (k = "left" || k = "rest") && keysLeftRestOnly t

/-- Iterating a Python value with `*(v or [])` semantics: a falsy value
iterates to nothing, a list to its elements, a string to its
single-character strings, a dict to its keys.  Iterating a non-zero int
raises `TypeError` in Python; we model that element as `err`. -/
def pyIterOrNil : PyVal → List PyVal
  | .vlist xs => xs
  | .str s => s.data.map (fun c => PyVal.str (String.mk [c]))
  | .vdict kvs => kvs.map (fun kv => PyVal.str kv.1)
  | .num n => if n = 0 then [] else [PyVal.err "TypeError: not iterable"]
  | .pyNone => []
  | .err e => [PyVal.err e]

def isNone : PyVal → Bool
  | .pyNone => true
  | _ => false

end PyVal

open PyVal

/-! ## `simplify` (nest.py lines 230-269), including `unwrap` (lines 220-228).

`unwrap` strips `{left, rest}` wrappers whose `rest` is falsy; in
`simplify` this is fused into the main recursion (the `while` loop of
`unwrap` becomes the recursive call on the `left` value, which re-checks
the same condition).  `simpUnwrapGo` finds the `"left"` entry and
continues there; `simpFind` finds a named entry and simplifies it;
`simpFoldRest` / `simpFoldL` perform the left-fold over `rest` entries
(lines 250-262).  Iterating a `rest` that is a string or a dict yields
plain strings, on which `simplify` is the identity; `foldStrBits` /
`foldKeyBits` inline that. -/

/-- Fold step over string characters coming from iterating a string-valued
`rest`: each 1-character string is truthy and not a list, and `simplify`
is the identity on strings. -/
def foldStrBits (acc : PyVal) : List Char → PyVal
  | [] => acc
  | c :: t => foldStrBits (.vlist [acc, .str (String.mk [c])]) t

/-- Fold step over dict keys coming from iterating a dict-valued `rest`:
an empty-string key is falsy and skipped; `simplify` is the identity on
strings. -/
def foldKeyBits (acc : PyVal) : List (String × PyVal) → PyVal
  | [] => acc
  | (k, _) :: t => foldKeyBits (if k = "" then acc else .vlist [acc, .str k]) t

mutual

def simplify (v : PyVal) : PyVal :=
  match v with
  | .vdict kvs =>
    if keysLeftRestOnly kvs && pyFalsy (getKv kvs "rest") && hasKey kvs "left" then
      simpUnwrapGo kvs
    else if hasKey kvs "first" then
      let tokens := (getKv kvs "first") :: pyIterOrNil (getKv kvs "rest")
      match tokens.filter (fun t => !(isNone t)) with
      | [t] => t
      | ts => .vlist ts
    else if hasKey kvs "path" && hasKey kvs "query" then
      .vdict [("path", getKv kvs "path"), ("query", simpFind kvs "query")]
    else if hasKey kvs "field" && hasKey kvs "group" then
      .vdict [("field", getKv kvs "field"), ("group", simpFind kvs "group")]
    else if hasKey kvs "field" && hasKey kvs "range" then
      .vdict [("field", getKv kvs "field"), ("range", simpFind kvs "range")]
    else if hasKey kvs "left" then
      simpFoldRest (simpFind kvs "left") kvs
    else
      .vdict (simpKvs kvs)
  | .vlist xs => .vlist (simpList xs)
  | w => w
termination_by sizeOf v

/-- The `unwrap` step: replace the node by its `"left"` value and keep
simplifying (the recursive `simplify` call re-checks the unwrap
condition, reproducing the `while` loop). -/
def simpUnwrapGo : List (String × PyVal) → PyVal
  | [] => .pyNone
  | (k, v) :: t => if k = "left" then simplify v else simpUnwrapGo t
termination_by kvs => sizeOf kvs

/-- Find the entry named `key` and simplify its value (the key is known
to be present at every call site). -/
def simpFind : List (String × PyVal) → String → PyVal
  | [], _ => .pyNone
  | (k, v) :: t, key => if k = key then simplify v else simpFind t key
termination_by kvs _ => sizeOf kvs

/-- Locate the `"rest"` entry (if any) and fold its entries onto `acc`.
A missing `rest` iterates to nothing (`node.get("rest") or []`). -/
def simpFoldRest (acc : PyVal) : List (String × PyVal) → PyVal
  | [] => acc
  | (k, v) :: t => if k = "rest" then simpFoldEntries acc v else simpFoldRest acc t
termination_by kvs => sizeOf kvs

def simpFoldEntries (acc : PyVal) : PyVal → PyVal
  | .vlist es => simpFoldL acc es
  | .str s => foldStrBits acc s.data
  | .vdict kvs => foldKeyBits acc kvs
  | .num n => if n = 0 then acc else .err "TypeError: rest not iterable"
  | .pyNone => acc
  | .err e => .err e
termination_by v => sizeOf v

/-- The fold body (lines 253-262): skip falsy entries; a two-element
list is an `[operator, operand]` pair. -/
def simpFoldL (acc : PyVal) : List PyVal → PyVal
  | [] => acc
  | .vlist [op, operand] :: t => simpFoldL (.vlist [acc, op, simplify operand]) t
  | e :: t =>
    if pyFalsy e then simpFoldL acc t
    else simpFoldL (.vlist [acc, simplify e]) t
termination_by es => sizeOf es

def simpKvs : List (String × PyVal) → List (String × PyVal)
  | [] => []
  | (k, v) :: t => (k, simplify v) :: simpKvs t
termination_by kvs => sizeOf kvs

def simpList : List PyVal → List PyVal
  | [] => []
  | x :: t => simplify x :: simpList t
termination_by xs => sizeOf xs

end

/-! ## Lowering helpers (nest.py lines 210-335) -/

/-- The closed option set (lines 210-218).  The Python source stores it
as a `set` and iterates it in unspecified order; we fix the textual
order of the source, which only affects dict key order in the output. -/
def QUERY_STRING_OPTION_KEYS : List String :=
  ["default_field", "default_operator", "analyzer", "quote_analyzer",
   "allow_leading_wildcard", "auto_generate_synonyms_phrase_query", "fields"]

/-- Lookup in the directive map (keys are unique by construction). -/
def dlookup : List (String × String) → String → Option String
  | [], _ => none
  | (k, v) :: t, key => if k = key then some v else dlookup t key

/-- Python `d[k] = v`: overwrite in place keeping the original position,
else append. -/
def pyDictUpdate : List (String × PyVal) → String → PyVal → List (String × PyVal)
  | [], k, v => [(k, v)]
  | (k0, v0) :: t, k, v =>
    if k0 = k then (k0, v) :: t else (k0, v0) :: pyDictUpdate t k v

/-- Python `{**a, **b}`. -/
def pyMergeKvs (a b : List (String × PyVal)) : List (String × PyVal) :=
  b.foldl (fun acc kv => pyDictUpdate acc kv.1 kv.2) a

/-- `value.split(",")`: split on every comma, keeping empty parts. -/
def splitCommaAux : List Char → List Char → List String
  | [], cur => [String.mk cur.reverse]
  | c :: rest, cur =>
    if c = ',' then String.mk cur.reverse :: splitCommaAux rest []
    else splitCommaAux rest (c :: cur)

def pySplitComma (s : String) : List String := splitCommaAux s.data []

/-- The ASCII whitespace stripped by Python `str.strip()`. -/
def isPyStripWs (c : Char) : Bool :=
  c = ' ' || c = '\t' || c = '\n' || c = '\r' || c = '\x0b' || c = '\x0c'

/-- Python `s.strip()`. -/
def pyStrip (s : String) : String :=
  String.mk (((s.data.dropWhile isPyStripWs).reverse.dropWhile isPyStripWs).reverse)

/-- `[f.strip() for f in value.split(",") if f.strip()]` (line 279). -/
def splitFieldsVal (v : String) : List String :=
  ((pySplitComma v).map pyStrip).filter (fun f => f != "")

/-- One step of the option-collection loop in
`apply_query_string_options` (lines 273-283). -/
def qsOptStep (directives : List (String × String))
    (opts : List (String × PyVal)) (key : String) : List (String × PyVal) :=
  match dlookup directives key with
  | none => opts
  | some v =>
    if key = "fields" then
      match splitFieldsVal v with
      | [] => opts
      | pf => pyDictUpdate opts key (.vlist (pf.map PyVal.str))
    else pyDictUpdate opts key (.str v)

def qsOptsFold (directives : List (String × String))
    (opts : List (String × PyVal)) : List String → List (String × PyVal)
  | [] => opts
  | key :: t => qsOptsFold directives (qsOptStep directives opts key) t

/-- `apply_query_string_options` (lines 271-286). -/
def applyQueryStringOptions (directives : List (String × String))
    (query : List (String × PyVal)) : PyVal :=
  match qsOptsFold directives [] QUERY_STRING_OPTION_KEYS with
  | [] => .vdict [("query_string", .vdict query)]
  | options => .vdict [("query_string", .vdict (pyMergeKvs query options))]

/-- `create_match` (288-289).  Dict keys are strings in this model; on a
non-string key the Python code would build a non-JSON dict or raise
`TypeError` (unhashable), never reached from parsed queries. -/
def createMatch (f v : PyVal) : PyVal :=
  match f with
  | .str s => .vdict [("match", .vdict [(s, v)])]
  | _ => .err "TypeError: match key"

/-- `create_exists` (291-292). -/
def createExists (v : PyVal) : PyVal :=
  .vdict [("exists", .vdict [("field", v)])]

/-- The operator table of `create_bool_query` (295-297). -/
def boolTypeOf : PyVal → Option String
  | .str "AND" => some "must"
  | .str "~" => some "must"
  | .str "OR" => some "should"
  | .str "NOT" => some "must_not"
  | _ => none

/-- `create_bool_query` (294-301); an unknown operator raises `KeyError`. -/
def createBoolQuery (op : PyVal) (queries : List PyVal) : PyVal :=
  match boolTypeOf op with
  | none => .err "KeyError: operator"
  | some bt =>
    if bt = "should" then
      .vdict [("bool", .vdict [(bt, .vlist queries), ("minimum_should_match", .num 1)])]
    else
      .vdict [("bool", .vdict [(bt, .vlist queries)])]

/-- Python `str.startswith` (character-level prefix test). -/
def strStartsWith (s pre : String) : Bool := List.isPrefixOf pre.data s.data

/-- `prefix_field` inside `prefix_nested_fields` (304-309). -/
def prefixField (path : String) (fieldName : String) : String :=
  if strStartsWith fieldName (path ++ ".") then fieldName
  else path ++ "." ++ fieldName

def boolClauseKeys : List String := ["must", "should", "must_not", "filter"]

/-- Re-keying of a `range` body (lines 314-318). -/
def prefixRangeKvs (path : String) : List (String × PyVal) → List (String × PyVal)
  | [] => []
  | (f, v) :: t => (prefixField path f, v) :: prefixRangeKvs path t

mutual

/-- `prefix_nested_fields` (303-332).  Non-dict arguments pass through
(the Python membership tests either pass through or raise on them; no
parsed query reaches those shapes). -/
def prefixNestedFields (query : PyVal) (path : String) : PyVal :=
  match query with
  | .vdict kvs =>
    if hasKey kvs "match" then
      match getKv kvs "match" with
      | .vdict ((f, v) :: _) => .vdict [("match", .vdict [(prefixField path f, v)])]
      | _ => .err "match body"
    else if hasKey kvs "range" then
      match getKv kvs "range" with
      | .vdict rkvs => .vdict [("range", .vdict (prefixRangeKvs path rkvs))]
      | _ => .err "range body"
    else if hasKey kvs "exists" then
      match getKv kvs "exists" with
      | .vdict ekvs =>
        match lookupKv ekvs "field" with
        | some (.str f) =>
          .vdict [("exists", .vdict [("field", .str (prefixField path f))])]
        | _ => .err "exists field"
      | _ => .err "exists body"
    else if hasKey kvs "bool" then pnfFindBool kvs path
    else if hasKey kvs "nested" then .vdict kvs
    else .vdict kvs
  | v => v
termination_by sizeOf query

/-- Locate the `"bool"` entry and rebuild `{"bool": body}` (322-329). -/
def pnfFindBool : List (String × PyVal) → String → PyVal
  | [], _ => .err "unreachable"
  | (k, v) :: t, path =>
    if k = "bool" then
      match v with
      | .vdict bkvs => .vdict [("bool", .vdict (pnfBoolKvs bkvs path))]
      | _ => .err "bool body"
    else pnfFindBool t path
termination_by kvs _ => sizeOf kvs

def pnfBoolKvs : List (String × PyVal) → String → List (String × PyVal)
  | [], _ => []
  | (k, v) :: t, path =>
    (k, if k ∈ boolClauseKeys then pnfClause v path else v) :: pnfBoolKvs t path
termination_by kvs _ => sizeOf kvs

/-- A clause value is iterated with a list comprehension (line 326);
strings iterate to their characters and dicts to their keys, on which
`prefix_nested_fields` is the identity; non-iterables raise. -/
def pnfClause (v : PyVal) (path : String) : PyVal :=
  match v with
  | .vlist qs => .vlist (pnfList qs path)
  | .str s => .vlist (s.data.map (fun c => PyVal.str (String.mk [c])))
  | .vdict kvs => .vlist (kvs.map (fun kv => PyVal.str kv.1))
  | _ => .err "TypeError: clause not iterable"
termination_by sizeOf v

def pnfList : List PyVal → String → List PyVal
  | [], _ => []
  | q :: t, path => prefixNestedFields q path :: pnfList t path
termination_by qs _ => sizeOf qs

end

/-- `create_nested_query` (334-335). -/
def createNestedQuery (path : String) (query : PyVal) : PyVal :=
  .vdict [("nested", .vdict [("path", .str path), ("query", prefixNestedFields query path)])]

mutual

/-- `apply_group` (360-377): rewrite scalar leaves of a group to
`[field, ":", leaf]`, preserving `NOT` and `AND`/`OR`/`~` nodes; other
lists are mapped elementwise; non-strings pass through. -/
def applyGroup (fieldv : PyVal) : PyVal → PyVal
  | .str v => .vlist [fieldv, .str ":", .str v]
  | .vlist [] => .vlist []
  | .vlist [.str "NOT", x] => .vlist [.str "NOT", applyGroup fieldv x]
  | .vlist [a, .str "AND", b] => .vlist [applyGroup fieldv a, .str "AND", applyGroup fieldv b]
  | .vlist [a, .str "OR", b] => .vlist [applyGroup fieldv a, .str "OR", applyGroup fieldv b]
  | .vlist [a, .str "~", b] => .vlist [applyGroup fieldv a, .str "~", applyGroup fieldv b]
  | .vlist xs => .vlist (agList fieldv xs)
  | v => v
termination_by g => sizeOf g

def agList (fieldv : PyVal) : List PyVal → List PyVal
  | [] => []
  | x :: t => applyGroup fieldv x :: agList fieldv t
termination_by xs => sizeOf xs

end

/-- Python `" ".join(tokens)`: `none` models the `TypeError` raised on a
non-string element. -/
def pyJoinSpace : List PyVal → Option String
  | [] => some ""
  | [.str s] => some s
  | .str s :: t => (pyJoinSpace t).map (fun r => s ++ " " ++ r)
  | _ => none

def allStrings : List PyVal → Bool
  | [] => true
  | .str _ :: t => allStrings t
  | _ => false

/-- `process_expr` (337-399), with a fuel parameter: the grouped-match
case recurses on `apply_group` output, which is larger than the input,
so the recursion is not structural (it does terminate in Python, and the
bound used by `astToEs` is far larger than any recursion the parsed ASTs
need).  The list cases are dispatched on length first and then on the
discriminating element, which reproduces the Python case order exactly
(sequence patterns of different lengths are disjoint, and a two-element
list is tested for `["NOT", x]` before `[sub, []]` as in the source);
the dict cases are an if-chain since Python mapping patterns match any
dict containing the named keys, and dicts match no sequence pattern. -/
def processExpr (fuel : Nat) (directives : List (String × String)) (e : PyVal) : PyVal :=
  match fuel with
  | 0 => .err "out of fuel"
  | n + 1 =>
    match e with
    | .vlist [a, b] =>
      match a with
      | .str "NOT" => createBoolQuery (.str "NOT") [processExpr n directives b]
      | _ =>
        match b with
        | .vlist [] => processExpr n directives a
        | _ =>
          if allStrings [a, b] then
            match pyJoinSpace [a, b] with
            | some c => applyQueryStringOptions directives [("query", .str c)]
            | none => .err "TypeError: join"
          else .vlist [a, b]
    | .vlist [a, b, c] =>
      match b with
      | .str ":" =>
        match a with
        | .str "_exists_" => createExists c
        | _ => createMatch a c
      | .str ">" =>
        match a with
        | .str path => createNestedQuery path (processExpr n directives c)
        | _ => .err "nested path"
      | .str "~" =>
        .vdict [("bool", .vdict
          [("must", .vlist [processExpr n directives a, processExpr n directives c])])]
      | _ => createBoolQuery b [processExpr n directives a, processExpr n directives c]
    | .vlist items =>
      if allStrings items then
        match pyJoinSpace items with
        | some c => applyQueryStringOptions directives [("query", .str c)]
        | none => .err "TypeError: join"
      else .vlist items
    | .vdict kvs =>
      if hasKey kvs "path" && hasKey kvs "query" then
        match getKv kvs "path" with
        | .str path => createNestedQuery path (processExpr n directives (getKv kvs "query"))
        | _ => .err "nested path"
      else if hasKey kvs "first" && hasKey kvs "rest" then
        match (getKv kvs "first") :: pyIterOrNil (getKv kvs "rest") with
        | [t] => applyQueryStringOptions directives [("query", t)]
        | ts =>
          match pyJoinSpace ts with
          | some c => applyQueryStringOptions directives [("query", .str c)]
          | none => .err "TypeError: join"
      else if hasKey kvs "field" && hasKey kvs "group" then
        processExpr n directives (applyGroup (getKv kvs "field") (getKv kvs "group"))
      else if hasKey kvs "field" && hasKey kvs "range" then
        match getKv kvs "field" with
        | .str f => .vdict [("range", .vdict [(f, getKv kvs "range")])]
        | _ => .err "range key"
      else .vdict kvs
    | .str s => applyQueryStringOptions directives [("query", .str s)]
    | v => v

/-- Fuel given to `processExpr` by `ast_to_es`.  The Python function has
no fuel; it is bounded in reality by CPython's recursion limit (~1000
frames), and no parsed AST comes anywhere near this bound. -/
def peFuel : Nat := 1000000

/-- `ast_to_es` (195-402): falsy ASTs yield `{}` (lines 205-206),
otherwise the simplified AST is lowered.  The fuel is a constant, so it
is identical across directive maps. -/
def astToEs (ast : PyVal) (directives : List (String × String)) : PyVal :=
  if pyFalsy ast then .vdict [] else
    processExpr peFuel directives (simplify ast)



/-! ## The grammar (nest.py lines 35-156), embedded as a recursive-descent
PEG parser over the character list, following tatsu semantics: the
`@@whitespace` class `[ \t\n\r]` is skipped before every token and
pattern, alphanumeric tokens respect the default nameguard (they must
not be followed by a name character), choices are ordered with
backtracking, closures are greedy, and the `~` cut in `primary` commits
to the parenthesised alternative.  Rule results mirror the `asjson`
shapes consumed by `simplify`/`process_expr`: rules with named elements
become dicts of those names, unnamed sequences become lists that include
their literal tokens, and closures become lists. -/

def isWsChar (c : Char) : Bool := c = ' ' || c = '\t' || c = '\n' || c = '\r'

def skipWs : List Char → List Char
  | [] => []
  | c :: t => if isWsChar c then skipWs t else c :: t

def isNameChar (c : Char) : Bool := c.isAlphanum || c = '_'

def isNameToken (tok : String) : Bool := tok.data.all isNameChar && !tok.data.isEmpty

def dropLit : List Char → List Char → Option (List Char)
  | [], rest => some rest
  | _ :: _, [] => none
  | p :: pt, c :: ct => if c = p then dropLit pt ct else none

/-- tatsu token match: skip whitespace, match the literal, apply the
nameguard. -/
def tokP (tok : String) (inp : List Char) : Except String (List Char) :=
  match dropLit tok.data (skipWs inp) with
  | none => .error ("expecting " ++ tok)
  | some rest =>
    if isNameToken tok then
      match rest with
      | c :: _ => if isNameChar c then .error ("expecting " ++ tok) else .ok rest
      | [] => .ok rest
    else .ok rest

def spanP (p : Char → Bool) : List Char → List Char × List Char
  | [] => ([], [])
  | c :: t =>
    if p c then
      match spanP p t with
      | (m, rest) => (c :: m, rest)
    else ([], c :: t)

def isFieldStart (c : Char) : Bool := c.isAlpha || c = '_'

def isFieldChar (c : Char) : Bool := c.isAlphanum || c = '_' || c = '.'

/-- `/[a-zA-Z_][a-zA-Z0-9_.]+/` (`field`, `directive_key`): note the `+`
after the first class, a match needs at least two characters. -/
def patFieldLike (label : String) (inp : List Char) : Except String (String × List Char) :=
  match skipWs inp with
  | c :: t =>
    if isFieldStart c then
      match spanP isFieldChar t with
      | ([], _) => .error ("expecting " ++ label)
      | (m, rest) => .ok (String.mk (c :: m), rest)
    else .error ("expecting " ++ label)
  | [] => .error ("expecting " ++ label)

/-- Python regex `\s`. -/
def isPyWs (c : Char) : Bool :=
  c = ' ' || c = '\t' || c = '\n' || c = '\r' || c = '\x0b' || c = '\x0c'

/-- Character class of `value` and `keyword_query`:
`/[^\s:>()[\]{}+]+/`. -/
def isValueChar (c : Char) : Bool :=
  !(isPyWs c || c = ':' || c = '>' || c = '(' || c = ')' || c = '[' ||
    c = ']' || c = '{' || c = '}' || c = '+')

/-- Character class of `keyword`: additionally excludes `~`. -/
def isKeywordChar (c : Char) : Bool := isValueChar c && !(c = '~')

/-- A `+`-repetition pattern match: whitespace, then a nonempty greedy
run of the class. -/
def patRun (label : String) (p : Char → Bool) (inp : List Char) :
    Except String (String × List Char) :=
  match spanP p (skipWs inp) with
  | ([], _) => .error ("expecting " ++ label)
  | (m, rest) => .ok (String.mk m, rest)

def takeDigits : Nat → List Char → Option (List Char × List Char)
  | 0, cs => some ([], cs)
  | k + 1, c :: t =>
    if c.isDigit then
      match takeDigits k t with
      | some (m, rest) => some (c :: m, rest)
      | none => none
    else none
  | _ + 1, [] => none

/-- `/[0-9]{4}-[0-9]{2}-[0-9]{2}/` (prefix match, as `re.match`). -/
def patDate (inp : List Char) : Except String (String × List Char) :=
  match takeDigits 4 (skipWs inp) with
  | some (d1, r1) =>
    match r1 with
    | '-' :: r2 =>
      match takeDigits 2 r2 with
      | some (d2, r3) =>
        match r3 with
        | '-' :: r4 =>
          match takeDigits 2 r4 with
          | some (d3, r5) => .ok (String.mk (d1 ++ '-' :: (d2 ++ '-' :: d3)), r5)
          | none => .error "expecting date"
        | _ => .error "expecting date"
      | none => .error "expecting date"
    | _ => .error "expecting date"
  | none => .error "expecting date"

/-- `keyword = !("AND" | "OR" | "NOT") /[^\s:>()[\]{}+~]+/`. -/
def pKeyword (inp : List Char) : Except String (String × List Char) :=
  match tokP "AND" inp with
  | .ok _ => .error "keyword lookahead"
  | .error _ =>
    match tokP "OR" inp with
    | .ok _ => .error "keyword lookahead"
    | .error _ =>
      match tokP "NOT" inp with
      | .ok _ => .error "keyword lookahead"
      | .error _ => patRun "keyword" isKeywordChar inp

/-- `date_math = 'now' [/[+-]/ date_math_value] [/[\/]/ date_math_unit]`.
Unreachable from `datetime_value`: its leading token is the one already
tried by the first alternative, and the `value` alternative subsumes any
remaining match; kept for completeness. -/
def pDateMath (inp : List Char) : Except String (PyVal × List Char) :=
  match tokP "now" inp with
  | .error e => .error e
  | .ok r1 =>
    let so :=
      match skipWs r1 with
      | c :: t =>
        if c = '+' || c = '-' then
          match patRun "date_math_value" Char.isDigit t with
          | .ok (d, r2) => (PyVal.vlist [.str (String.mk [c]), .str d], r2)
          | .error _ => (PyVal.pyNone, r1)
        else (PyVal.pyNone, r1)
      | [] => (PyVal.pyNone, r1)
    match so with
    | (sv, r2) =>
      let uo :=
        match skipWs r2 with
        | c :: t =>
          if c = '/' then
            match tokP "d" t with
            | .ok r3 => (PyVal.str "d", r3)
            | .error _ =>
              match tokP "h" t with
              | .ok r3 => (PyVal.str "h", r3)
              | .error _ =>
                match tokP "m" t with
                | .ok r3 => (PyVal.str "m", r3)
                | .error _ =>
                  match tokP "s" t with
                  | .ok r3 => (PyVal.str "s", r3)
                  | .error _ => (PyVal.pyNone, r2)
          else (PyVal.pyNone, r2)
        | [] => (PyVal.pyNone, r2)
      match uo with
      | (uv, r4) => .ok (.vlist [.str "now", sv, uv], r4)

/-- `datetime_value = 'now' | /[0-9]{4}-[0-9]{2}-[0-9]{2}/ | value
| date_math`. -/
def pDatetime (inp : List Char) : Except String (PyVal × List Char) :=
  match tokP "now" inp with
  | .ok r => .ok (.str "now", r)
  | .error _ =>
    match patDate inp with
    | .ok (d, r) => .ok (.str d, r)
    | .error _ =>
      match patRun "value" isValueChar inp with
      | .ok (v, r) => .ok (.str v, r)
      | .error _ => pDateMath inp

/-- `range_value`, bracket alternative: `'[' gte:datetime_value 'TO'
lte:datetime_value ']'`. -/
def pRangeBracket (inp : List Char) : Except String (PyVal × List Char) :=
  match tokP "[" inp with
  | .error e => .error e
  | .ok r1 =>
    match pDatetime r1 with
    | .error e => .error e
    | .ok (g, r2) =>
      match tokP "TO" r2 with
      | .error e => .error e
      | .ok r3 =>
        match pDatetime r3 with
        | .error e => .error e
        | .ok (l, r4) =>
          match tokP "]" r4 with
          | .error e => .error e
          | .ok r5 => .ok (.vdict [("gte", g), ("lte", l)], r5)

/-- `range_value`, brace alternative: `'{' gt:datetime_value 'TO'
lt:datetime_value '}'`. -/
def pRangeBrace (inp : List Char) : Except String (PyVal × List Char) :=
  match tokP "\x7b" inp with
  | .error e => .error e
  | .ok r1 =>
    match pDatetime r1 with
    | .error e => .error e
    | .ok (g, r2) =>
      match tokP "TO" r2 with
      | .error e => .error e
      | .ok r3 =>
        match pDatetime r3 with
        | .error e => .error e
        | .ok (l, r4) =>
          match tokP "\x7d" r4 with
          | .error e => .error e
          | .ok r5 => .ok (.vdict [("gt", g), ("lt", l)], r5)

def pRangeValue (inp : List Char) : Except String (PyVal × List Char) :=
  match pRangeBracket inp with
  | .ok res => .ok res
  | .error _ => pRangeBrace inp

mutual

/-- `start = directives:directive_list expr:expr $`. -/
def pStart (n : Nat) (inp : List Char) : Except String (PyVal × List Char) :=
  match n with
  | 0 => .error "fuel"
  | m + 1 =>
    match pManyDirective m inp with
    | (ds, r1) =>
      match pExpr m r1 with
      | .error e => .error e
      | .ok (e, r2) =>
        match skipWs r2 with
        | [] => .ok (.vdict [("directives", .vlist ds), ("expr", e)], [])
        | _ => .error "expecting end of input"

/-- `directive_list = {directive}`. -/
def pManyDirective (n : Nat) (inp : List Char) : List PyVal × List Char :=
  match n with
  | 0 => ([], inp)
  | m + 1 =>
    match pDirective m inp with
    | .error _ => ([], inp)
    | .ok (d, r) =>
      match pManyDirective m r with
      | (ds, r2) => (d :: ds, r2)

/-- `directive = '@' key:directive_key '=' value:directive_value`. -/
def pDirective (n : Nat) (inp : List Char) : Except String (PyVal × List Char) :=
  match n with
  | 0 => .error "fuel"
  | _m + 1 =>
    match tokP "@" inp with
    | .error e => .error e
    | .ok r1 =>
      match patFieldLike "directive_key" r1 with
      | .error e => .error e
      | .ok (k, r2) =>
        match tokP "=" r2 with
        | .error e => .error e
        | .ok r3 =>
          match patRun "directive_value" (fun c => !isPyWs c) r3 with
          | .error e => .error e
          | .ok (v, r4) => .ok (.vdict [("key", .str k), ("value", .str v)], r4)

/-- `expr = or_expr`. -/
def pExpr (n : Nat) (inp : List Char) : Except String (PyVal × List Char) :=
  match n with
  | 0 => .error "fuel"
  | m + 1 => pOrExpr m inp

/-- `or_expr = left:and_expr rest:{'OR' right:and_expr}`. -/
def pOrExpr (n : Nat) (inp : List Char) : Except String (PyVal × List Char) :=
  match n with
  | 0 => .error "fuel"
  | m + 1 =>
    match pAndExpr m inp with
    | .error e => .error e
    | .ok (l, r1) =>
      match pOrRest m r1 with
      | (es, r2) => .ok (.vdict [("left", l), ("rest", .vlist es)], r2)

def pOrRest (n : Nat) (inp : List Char) : List PyVal × List Char :=
  match n with
  | 0 => ([], inp)
  | m + 1 =>
    match tokP "OR" inp with
    | .error _ => ([], inp)
    | .ok r1 =>
      match pAndExpr m r1 with
      | .error _ => ([], inp)
      | .ok (a, r2) =>
        match pOrRest m r2 with
        | (es, r3) => (.vlist [.str "OR", a] :: es, r3)

/-- `and_expr = left:tilde_expr rest:{'AND' right:tilde_expr}`. -/
def pAndExpr (n : Nat) (inp : List Char) : Except String (PyVal × List Char) :=
  match n with
  | 0 => .error "fuel"
  | m + 1 =>
    match pTildeExpr m inp with
    | .error e => .error e
    | .ok (l, r1) =>
      match pAndRest m r1 with
      | (es, r2) => .ok (.vdict [("left", l), ("rest", .vlist es)], r2)

def pAndRest (n : Nat) (inp : List Char) : List PyVal × List Char :=
  match n with
  | 0 => ([], inp)
  | m + 1 =>
    match tokP "AND" inp with
    | .error _ => ([], inp)
    | .ok r1 =>
      match pTildeExpr m r1 with
      | .error _ => ([], inp)
      | .ok (a, r2) =>
        match pAndRest m r2 with
        | (es, r3) => (.vlist [.str "AND", a] :: es, r3)

/-- `tilde_expr = left:not_expr rest:{'~' right:not_expr}`. -/
def pTildeExpr (n : Nat) (inp : List Char) : Except String (PyVal × List Char) :=
  match n with
  | 0 => .error "fuel"
  | m + 1 =>
    match pNotExpr m inp with
    | .error e => .error e
    | .ok (l, r1) =>
      match pTildeRest m r1 with
      | (es, r2) => .ok (.vdict [("left", l), ("rest", .vlist es)], r2)

def pTildeRest (n : Nat) (inp : List Char) : List PyVal × List Char :=
  match n with
  | 0 => ([], inp)
  | m + 1 =>
    match tokP "~" inp with
    | .error _ => ([], inp)
    | .ok r1 =>
      match pNotExpr m r1 with
      | .error _ => ([], inp)
      | .ok (a, r2) =>
        match pTildeRest m r2 with
        | (es, r3) => (.vlist [.str "~", a] :: es, r3)

/-- `not_expr = 'NOT' not_expr | primary`. -/
def pNotExpr (n : Nat) (inp : List Char) : Except String (PyVal × List Char) :=
  match n with
  | 0 => .error "fuel"
  | m + 1 =>
    match tokP "NOT" inp with
    | .ok r1 =>
      match pNotExpr m r1 with
      | .ok (s, r2) => .ok (.vlist [.str "NOT", s], r2)
      | .error _ => pPrimary m inp
    | .error _ => pPrimary m inp

/-- `primary = '(' ~ @:expr ')' | nested_query | basic_match
| keyword_sequence | keyword_query`.  After `(` the cut commits. -/
def pPrimary (n : Nat) (inp : List Char) : Except String (PyVal × List Char) :=
  match n with
  | 0 => .error "fuel"
  | m + 1 =>
    match tokP "(" inp with
    | .ok r1 =>
      match pExpr m r1 with
      | .error e => .error e
      | .ok (e, r2) =>
        match tokP ")" r2 with
        | .error er => .error er
        | .ok r3 => .ok (e, r3)
    | .error _ =>
      match pNestedQuery m inp with
      | .ok res => .ok res
      | .error _ =>
        match pBasicMatch m inp with
        | .ok res => .ok res
        | .error _ =>
          match pKeywordSeq m inp with
          | .ok res => .ok res
          | .error _ =>
            match patRun "keyword_query" isValueChar inp with
            | .ok (s, r) => .ok (.str s, r)
            | .error _ =>
              .error "expecting one of: ( nested_query basic_match keyword"

/-- `nested_query = path:field '>' query:nested_target`. -/
def pNestedQuery (n : Nat) (inp : List Char) : Except String (PyVal × List Char) :=
  match n with
  | 0 => .error "fuel"
  | m + 1 =>
    match patFieldLike "field" inp with
    | .error e => .error e
    | .ok (f, r1) =>
      match tokP ">" r1 with
      | .error e => .error e
      | .ok r2 =>
        match pNestedTarget m r2 with
        | .error e => .error e
        | .ok (t, r3) => .ok (.vdict [("path", .str f), ("query", t)], r3)

/-- `nested_target = '(' @:nested_expr ')' | basic_match` with
`nested_expr = expr`; no cut, so a failing first alternative backtracks. -/
def pNestedTarget (n : Nat) (inp : List Char) : Except String (PyVal × List Char) :=
  match n with
  | 0 => .error "fuel"
  | m + 1 =>
    match tokP "(" inp with
    | .ok r1 =>
      match pExpr m r1 with
      | .ok (e, r2) =>
        match tokP ")" r2 with
        | .ok r3 => .ok (e, r3)
        | .error _ => pBasicMatch m inp
      | .error _ => pBasicMatch m inp
    | .error _ => pBasicMatch m inp

/-- `basic_match = grouped_match | field ':' value
| field:field ':' range:range_value`.  The second alternative is an
unnamed sequence, so its tokens are kept: `[field, ":", value]`. -/
def pBasicMatch (n : Nat) (inp : List Char) : Except String (PyVal × List Char) :=
  match n with
  | 0 => .error "fuel"
  | m + 1 =>
    match pGroupedMatch m inp with
    | .ok res => .ok res
    | .error _ =>
      match patFieldLike "field" inp with
      | .ok (f, r1) =>
        match tokP ":" r1 with
        | .ok r2 =>
          match patRun "value" isValueChar r2 with
          | .ok (v, r3) => .ok (.vlist [.str f, .str ":", .str v], r3)
          | .error _ => pBasicRange inp
        | .error _ => pBasicRange inp
      | .error _ => pBasicRange inp

/-- Third `basic_match` alternative: `field:field ':' range:range_value`. -/
def pBasicRange (inp : List Char) : Except String (PyVal × List Char) :=
  match patFieldLike "field" inp with
  | .error e => .error e
  | .ok (f, r1) =>
    match tokP ":" r1 with
    | .error e => .error e
    | .ok r2 =>
      match pRangeValue r2 with
      | .error e => .error e
      | .ok (r, r3) => .ok (.vdict [("field", .str f), ("range", r)], r3)

/-- `grouped_match = field:field ':' '(' group:expr ')'`. -/
def pGroupedMatch (n : Nat) (inp : List Char) : Except String (PyVal × List Char) :=
  match n with
  | 0 => .error "fuel"
  | m + 1 =>
    match patFieldLike "field" inp with
    | .error e => .error e
    | .ok (f, r1) =>
      match tokP ":" r1 with
      | .error e => .error e
      | .ok r2 =>
        match tokP "(" r2 with
        | .error e => .error e
        | .ok r3 =>
          match pExpr m r3 with
          | .error e => .error e
          | .ok (g, r4) =>
            match tokP ")" r4 with
            | .error e => .error e
            | .ok r5 => .ok (.vdict [("field", .str f), ("group", g)], r5)

/-- `keyword_sequence = first:keyword rest:{keyword}`. -/
def pKeywordSeq (n : Nat) (inp : List Char) : Except String (PyVal × List Char) :=
  match n with
  | 0 => .error "fuel"
  | m + 1 =>
    match pKeyword inp with
    | .error e => .error e
    | .ok (k, r1) =>
      match pKeywordRest m r1 with
      | (ks, r2) => .ok (.vdict [("first", .str k), ("rest", .vlist ks)], r2)

def pKeywordRest (n : Nat) (inp : List Char) : List PyVal × List Char :=
  match n with
  | 0 => ([], inp)
  | m + 1 =>
    match pKeyword inp with
    | .error _ => ([], inp)
    | .ok (k, r1) =>
      match pKeywordRest m r1 with
      | (ks, r2) => (.str k :: ks, r2)

end

/-- `_PARSER.parse(query_string)` followed by `asjson` (lines 173-174).
The fuel is far larger than the rule-invocation depth any input of this
length can reach. -/
def rawParse (s : String) : Except String PyVal :=
  match pStart (128 * (s.length + 4)) s.data with
  | .ok (v, _) => .ok v
  | .error e => .error e

def listIsPrefix : List Char → List Char → Bool
  | [], _ => true
  | _ :: _, [] => false
  | a :: t1, b :: t2 => a = b && listIsPrefix t1 t2

def listIsInfix (needle : List Char) : List Char → Bool
  | [] => listIsPrefix needle []
  | c :: t => listIsPrefix needle (c :: t) || listIsInfix needle t

/-- Python `needle in hay`. -/
def strContains (hay needle : String) : Bool :=
  listIsInfix needle.data hay.data

/-- Python `d[k] = v` on the directive map. -/
def dirsUpdate : List (String × String) → String → String → List (String × String)
  | [], k, v => [(k, v)]
  | (k0, v0) :: t, k, v =>
    if k0 = k then (k0, v) :: t else (k0, v0) :: dirsUpdate t k v

/-- The directive dict comprehension (lines 178-182): dict items only,
`item["key"]: item["value"]`, later entries overwriting earlier ones.
Items lacking those keys would raise `KeyError` in Python; the parser
always emits both. -/
def collectDirectives : List PyVal → List (String × String) → List (String × String)
  | [], acc => acc
  | .vdict kvs :: t, acc =>
    match lookupKv kvs "key", lookupKv kvs "value" with
    | some (.str k), some (.str v) => collectDirectives t (dirsUpdate acc k v)
    | _, _ => collectDirectives t acc
  | _ :: t, acc => collectDirectives t acc

/-- `parse_query` (159-192): parse, split off directives, lower; on
`FailedParse` raise `ValueError` with one of the two message forms. -/
def parseQuery (s : String) : Except String PyVal :=
  match rawParse s with
  | .ok astJson =>
    let directivesList :=
      match astJson with
      | .vdict kvs =>
        match lookupKv kvs "directives" with
        | some (.vlist ds) => ds
        | _ => []
      | _ => []
    let directives := collectDirectives directivesList []
    let expr :=
      match astJson with
      | .vdict kvs => getKv kvs "expr"
      | v => v
    .ok (astToEs expr directives)
  | .error errorMsg =>
    if strContains errorMsg "expecting one of" then
      .error ("Invalid query format. Query must start with a field name or keyword. Got: " ++ s)
    else
      .error ("Invalid query string: " ++ s ++ ". " ++ errorMsg)


/-! ## Observation helpers for the emitted JSON -/

def jsonGet (v : PyVal) (k : String) : Option PyVal :=
  match v with
  | .vdict kvs => lookupKv kvs k
  | _ => none

def jsonGet2 (v : PyVal) (k1 k2 : String) : Option PyVal :=
  match jsonGet v k1 with
  | some w => jsonGet w k2
  | none => none

/-! ## Claim C4 -/

/-- C4: for every pair of sub-expressions `x` and `y`, lowering
`[x, "~", y]` yields JSON identical to lowering `[x, "AND", y]`, namely
`{"bool": {"must": [lower(x), lower(y)]}}` (sub-expressions lowered at
the matching fuel). -/
theorem C4_tilde_and_lower_identically (n : Nat) (d : List (String × String))
    (x y : PyVal) :
    processExpr (n + 1) d (.vlist [x, .str "~", y])
      = .vdict [("bool", .vdict [("must",
          .vlist [processExpr n d x, processExpr n d y])])]
    ∧ processExpr (n + 1) d (.vlist [x, .str "AND", y])
      = .vdict [("bool", .vdict [("must",
          .vlist [processExpr n d x, processExpr n d y])])]
    ∧ processExpr (n + 1) d (.vlist [x, .str "~", y])
      = processExpr (n + 1) d (.vlist [x, .str "AND", y]) :=
  ⟨rfl, rfl, rfl⟩

/-! ## Claim C5 -/

/-- C5: lowering `[x, "OR", y]` yields
`{"bool": {"should": [lower(x), lower(y)], "minimum_should_match": 1}}`,
while lowering `[x, "AND", y]` yields `{"bool": {"must": [lower(x),
lower(y)]}}` whose `bool` body has no `minimum_should_match` key. -/
theorem C5_or_carries_minimum_should_match (n : Nat) (d : List (String × String))
    (x y : PyVal) :
    processExpr (n + 1) d (.vlist [x, .str "OR", y])
      = .vdict [("bool", .vdict
          [("should", .vlist [processExpr n d x, processExpr n d y]),
           ("minimum_should_match", .num 1)])]
    ∧ processExpr (n + 1) d (.vlist [x, .str "AND", y])
      = .vdict [("bool", .vdict [("must",
          .vlist [processExpr n d x, processExpr n d y])])]
    ∧ jsonGet2 (processExpr (n + 1) d (.vlist [x, .str "AND", y]))
        "bool" "minimum_should_match" = none :=
  ⟨rfl, rfl, rfl⟩



/-! ## Small stepping lemmas for `simplify`, used to evaluate it on
concrete parse trees and to state its shape properties. -/

theorem simplify_str (s : String) : simplify (.str s) = .str s := by
  simp [simplify]

theorem simplify_leftRestNil (x : PyVal) :
    simplify (.vdict [("left", x), ("rest", .vlist [])]) = simplify x := by
  simp [simplify, keysLeftRestOnly, getKv, hasKey, lookupKv, pyFalsy, simpUnwrapGo]

theorem simplify_leftRest_fold (x e : PyVal) (es : List PyVal) :
    simplify (.vdict [("left", x), ("rest", .vlist (e :: es))])
      = simpFoldL (simplify x) (e :: es) := by
  simp [simplify, keysLeftRestOnly, getKv, hasKey, lookupKv, pyFalsy,
    simpFind, simpFoldRest, simpFoldEntries]

theorem simpFoldL_nil (acc : PyVal) : simpFoldL acc [] = acc := by
  simp [simpFoldL]

theorem simpFoldL_cons2 (acc op y : PyVal) (t : List PyVal) :
    simpFoldL acc (.vlist [op, y] :: t)
      = simpFoldL (.vlist [acc, op, simplify y]) t := by
  simp [simpFoldL]

theorem simplify_first_nil (k : String) :
    simplify (.vdict [("first", .str k), ("rest", .vlist [])]) = .str k := by
  simp [simplify, keysLeftRestOnly, getKv, hasKey, lookupKv, pyFalsy,
    pyIterOrNil, isNone]

theorem simplify_field_group (f g : PyVal) :
    simplify (.vdict [("field", f), ("group", g)])
      = .vdict [("field", f), ("group", simplify g)] := by
  simp [simplify, keysLeftRestOnly, getKv, hasKey, lookupKv, simpFind]

theorem simplify_path_query (p q : PyVal) :
    simplify (.vdict [("path", p), ("query", q)])
      = .vdict [("path", p), ("query", simplify q)] := by
  simp [simplify, keysLeftRestOnly, getKv, hasKey, lookupKv, simpFind]

theorem simplify_field_range (f r : PyVal) :
    simplify (.vdict [("field", f), ("range", r)])
      = .vdict [("field", f), ("range", simplify r)] := by
  simp [simplify, keysLeftRestOnly, getKv, hasKey, lookupKv, simpFind]

theorem simplify_list3 (x y z : PyVal) :
    simplify (.vlist [x, y, z]) = .vlist [simplify x, simplify y, simplify z] := by
  simp [simplify, simpList]

/-- Unfolding `ast_to_es` on a non-falsy AST (lines 205-206, 401-402). -/
theorem astToEs_not_falsy (ast : PyVal) (d : List (String × String))
    (h : pyFalsy ast = false) :
    astToEs ast d = processExpr peFuel d (simplify ast) := by
  unfold astToEs
  rw [h]
  simp

/-! ## Claim C3 -/

/-- Lowering a `[field, ":", value]` leaf: the `_exists_` pseudo-field
gives an `exists` query, anything else a `match` (lines 339-342). -/
theorem processExpr_colon_case (k : Nat) (d : List (String × String))
    (f : String) (v : PyVal) :
    processExpr (k + 1) d (.vlist [.str f, .str ":", v])
      = if f = "_exists_" then createExists v else createMatch (.str f) v := by
  by_cases h : f = "_exists_"
  · subst h; rfl
  · rw [if_neg h]
    simp [processExpr, h]

/-- The `should`-form produced for an `OR` of two `[f, ":", x]` leaves. -/
theorem processExpr_or_of_colon (m : Nat) (d : List (String × String))
    (fld a b : String) :
    processExpr (m + 2) d
        (.vlist [.vlist [.str fld, .str ":", .str a], .str "OR",
                 .vlist [.str fld, .str ":", .str b]])
      = .vdict [("bool", .vdict
          [("should", .vlist
              [if fld = "_exists_" then createExists (.str a)
               else createMatch (.str fld) (.str a),
               if fld = "_exists_" then createExists (.str b)
               else createMatch (.str fld) (.str b)]),
           ("minimum_should_match", .num 1)])] := by
  have h0 : processExpr (m + 2) d
        (.vlist [.vlist [.str fld, .str ":", .str a], .str "OR",
                 .vlist [.str fld, .str ":", .str b]])
      = .vdict [("bool", .vdict
          [("should", .vlist
              [processExpr (m + 1) d (.vlist [.str fld, .str ":", .str a]),
               processExpr (m + 1) d (.vlist [.str fld, .str ":", .str b])]),
           ("minimum_should_match", .num 1)])] := rfl
  rw [h0, processExpr_colon_case m d fld (.str a), processExpr_colon_case m d fld (.str b)]

/-- The raw parse tree of `"tt:(aa OR bb)"` (expr part). -/
def c3RawGrouped : PyVal :=
  .vdict
    [("left", .vdict
        [("left", .vdict
            [("left", .vdict
                [("field", .str "tt"),
                 ("group", .vdict
                    [("left", .vdict
                        [("left", .vdict
                            [("left", .vdict [("first", .str "aa"), ("rest", .vlist [])]),
                             ("rest", .vlist [])]),
                         ("rest", .vlist [])]),
                     ("rest", .vlist
                        [.vlist [.str "OR", .vdict
                              [("left", .vdict
                                  [("left", .vdict [("first", .str "bb"), ("rest", .vlist [])]),
                                   ("rest", .vlist [])]),
                               ("rest", .vlist [])]]])])]),
             ("rest", .vlist [])]),
         ("rest", .vlist [])]),
     ("rest", .vlist [])]

/-- The raw parse tree of `"tt:aa OR tt:bb"` (expr part). -/
def c3RawOr : PyVal :=
  .vdict
    [("left", .vdict
        [("left", .vdict
            [("left", .vlist [.str "tt", .str ":", .str "aa"]), ("rest", .vlist [])]),
         ("rest", .vlist [])]),
     ("rest", .vlist
        [.vlist [.str "OR", .vdict
              [("left", .vdict
                  [("left", .vlist [.str "tt", .str ":", .str "bb"]),
                   ("rest", .vlist [])]),
               ("rest", .vlist [])]]])]

/-- The common DSL document both concrete queries lower to. -/
def c3Doc : PyVal :=
  .vdict [("bool", .vdict
      [("should", .vlist
          [.vdict [("match", .vdict [("tt", .str "aa")])],
           .vdict [("match", .vdict [("tt", .str "bb")])]]),
       ("minimum_should_match", .num 1)])]

theorem c3_simplify_grouped : simplify c3RawGrouped
    = .vdict [("field", .str "tt"),
              ("group", .vlist [.str "aa", .str "OR", .str "bb"])] := by
  simp only [c3RawGrouped, simplify_leftRestNil, simplify_field_group,
    simplify_leftRest_fold, simplify_first_nil, simpFoldL_cons2, simpFoldL_nil]

theorem c3_simplify_or : simplify c3RawOr
    = .vlist [.vlist [.str "tt", .str ":", .str "aa"], .str "OR",
              .vlist [.str "tt", .str ":", .str "bb"]] := by
  simp only [c3RawOr, simplify_leftRestNil, simplify_leftRest_fold,
    simplify_list3, simplify_str, simpFoldL_cons2, simpFoldL_nil]

theorem c3_grouped_lowers : astToEs c3RawGrouped [] = c3Doc := by
  rw [astToEs_not_falsy c3RawGrouped [] (by simp [c3RawGrouped, pyFalsy]),
    c3_simplify_grouped]
  have h1 : processExpr peFuel []
        (.vdict [("field", .str "tt"),
                 ("group", .vlist [.str "aa", .str "OR", .str "bb"])])
      = processExpr 999999 []
          (applyGroup (.str "tt") (.vlist [.str "aa", .str "OR", .str "bb"])) := rfl
  have hag : applyGroup (.str "tt") (.vlist [.str "aa", .str "OR", .str "bb"])
      = .vlist [.vlist [.str "tt", .str ":", .str "aa"], .str "OR",
                .vlist [.str "tt", .str ":", .str "bb"]] := by
    simp [applyGroup]
  rw [h1, hag]
  rfl

theorem c3_or_lowers : astToEs c3RawOr [] = c3Doc := by
  rw [astToEs_not_falsy c3RawOr [] (by simp [c3RawOr, pyFalsy]), c3_simplify_or]
  rfl

/-- C3: lowering a `{field, group}` node first rewrites every scalar
leaf `v` of the group into `[field, ":", v]` (preserving `NOT` nodes and
`AND`/`OR`/`~` binary structure, other lists elementwise) and then
lowers the rewritten AST normally; in particular `f:(a OR b)` lowers
exactly like `f:a OR f:b`, both at the AST level (for all field and
scalar names, at matching fuel) and for the concretely parsed query pair
`"tt:(aa OR bb)"` / `"tt:aa OR tt:bb"`. -/
theorem C3_grouped_distribution :
    (∀ (f g : PyVal) (n : Nat) (d : List (String × String)),
      processExpr (n + 1) d (.vdict [("field", f), ("group", g)])
        = processExpr n d (applyGroup f g))
    ∧ (∀ (f : PyVal) (v : String), applyGroup f (.str v) = .vlist [f, .str ":", .str v])
    ∧ (∀ (f x : PyVal),
        applyGroup f (.vlist [.str "NOT", x]) = .vlist [.str "NOT", applyGroup f x])
    ∧ (∀ (f a b : PyVal),
        applyGroup f (.vlist [a, .str "AND", b])
          = .vlist [applyGroup f a, .str "AND", applyGroup f b])
    ∧ (∀ (f a b : PyVal),
        applyGroup f (.vlist [a, .str "OR", b])
          = .vlist [applyGroup f a, .str "OR", applyGroup f b])
    ∧ (∀ (f a b : PyVal),
        applyGroup f (.vlist [a, .str "~", b])
          = .vlist [applyGroup f a, .str "~", applyGroup f b])
    ∧ (∀ (fld a b : String) (n : Nat) (d : List (String × String)),
        processExpr (n + 3) d
            (.vdict [("field", .str fld),
                     ("group", .vlist [.str a, .str "OR", .str b])])
          = processExpr (n + 3) d
              (.vlist [.vlist [.str fld, .str ":", .str a], .str "OR",
                       .vlist [.str fld, .str ":", .str b]]))
    ∧ parseQuery "tt:(aa OR bb)" = parseQuery "tt:aa OR tt:bb" := by
  refine ⟨fun f g n d => rfl, fun f v => by simp [applyGroup],
    fun f x => by simp [applyGroup], fun f a b => by simp [applyGroup],
    fun f a b => by simp [applyGroup], fun f a b => by simp [applyGroup],
    ?_, ?_⟩
  · intro fld a b n d
    have hL : processExpr (n + 3) d
        (.vdict [("field", .str fld), ("group", .vlist [.str a, .str "OR", .str b])])
        = processExpr (n + 2) d
            (applyGroup (.str fld) (.vlist [.str a, .str "OR", .str b])) := rfl
    have hag : applyGroup (.str fld) (.vlist [.str a, .str "OR", .str b])
        = .vlist [.vlist [.str fld, .str ":", .str a], .str "OR",
                  .vlist [.str fld, .str ":", .str b]] := by
      simp [applyGroup]
    rw [hL, hag, processExpr_or_of_colon n d fld a b]
    have h3 : (n + 3) = (n + 1) + 2 := rfl
    rw [h3, processExpr_or_of_colon (n + 1) d fld a b]
  · have p1 : parseQuery "tt:(aa OR bb)" = .ok (astToEs c3RawGrouped []) := by rfl
    have p2 : parseQuery "tt:aa OR tt:bb" = .ok (astToEs c3RawOr []) := by rfl
    rw [p1, p2, c3_grouped_lowers, c3_or_lowers]

/-! ## Claim C2 -/

/-- The raw parse tree of `"aa:1 OR bb:2 AND cc:3"` (expr part). -/
def c2Raw : PyVal :=
  .vdict
    [("left", .vdict
        [("left", .vdict
            [("left", .vlist [.str "aa", .str ":", .str "1"]), ("rest", .vlist [])]),
         ("rest", .vlist [])]),
     ("rest", .vlist
        [.vlist [.str "OR", .vdict
              [("left", .vdict
                  [("left", .vlist [.str "bb", .str ":", .str "2"]),
                   ("rest", .vlist [])]),
               ("rest", .vlist
                  [.vlist [.str "AND", .vdict
                        [("left", .vlist [.str "cc", .str ":", .str "3"]),
                         ("rest", .vlist [])]]])]]])]

/-- The DSL document `"aa:1 OR bb:2 AND cc:3"` lowers to. -/
def c2Doc : PyVal :=
  .vdict [("bool", .vdict
      [("should", .vlist
          [.vdict [("match", .vdict [("aa", .str "1")])],
           .vdict [("bool", .vdict
              [("must", .vlist
                  [.vdict [("match", .vdict [("bb", .str "2")])],
                   .vdict [("match", .vdict [("cc", .str "3")])]])])]]),
       ("minimum_should_match", .num 1)])]

theorem c2_simplify : simplify c2Raw
    = .vlist [.vlist [.str "aa", .str ":", .str "1"], .str "OR",
        .vlist [.vlist [.str "bb", .str ":", .str "2"], .str "AND",
                .vlist [.str "cc", .str ":", .str "3"]]] := by
  simp only [c2Raw, simplify_leftRestNil, simplify_leftRest_fold, simplify_list3,
    simplify_str, simpFoldL_cons2, simpFoldL_nil]

theorem c2_lowers : astToEs c2Raw [] = c2Doc := by
  rw [astToEs_not_falsy c2Raw [] (by simp [c2Raw, pyFalsy]), c2_simplify]
  rfl

/-- C2: the grammar cascade gives precedence `OR < AND < ~ < NOT <
primary` with left-associative binary operators.  For operands `a`, `b`,
`c` (raw sub-trees at the `not_expr` level, wrapped by the
`tilde_expr`/`and_expr` singleton `{left, rest: []}` nodes the cascade
produces), the raw tree of `A OR B AND C` normalises to
`[A, "OR", [B, "AND", C]]`; lowering that shape produces the claimed
`should`/`must` nesting with `minimum_should_match: 1`; a chain
`{left, rest: [[op1, b], [op2, c]]}` folds left-associatively; and the
concrete input `"aa:1 OR bb:2 AND cc:3"` parses and lowers to exactly
the claimed document. -/
theorem C2_precedence_or_and :
    (∀ a b c : PyVal,
      simplify (.vdict
        [("left", .vdict
            [("left", .vdict [("left", a), ("rest", .vlist [])]),
             ("rest", .vlist [])]),
         ("rest", .vlist
            [.vlist [.str "OR", .vdict
                  [("left", .vdict [("left", b), ("rest", .vlist [])]),
                   ("rest", .vlist
                      [.vlist [.str "AND",
                        .vdict [("left", c), ("rest", .vlist [])]]])]]])])
        = .vlist [simplify a, .str "OR",
                  .vlist [simplify b, .str "AND", simplify c]])
    ∧ (∀ (n : Nat) (d : List (String × String)) (x y z : PyVal),
        processExpr (n + 2) d (.vlist [x, .str "OR", .vlist [y, .str "AND", z]])
          = .vdict [("bool", .vdict
              [("should", .vlist
                  [processExpr (n + 1) d x,
                   .vdict [("bool", .vdict
                      [("must", .vlist
                          [processExpr n d y, processExpr n d z])])]]),
               ("minimum_should_match", .num 1)])])
    ∧ (∀ (a b c op1 op2 : PyVal),
        simplify (.vdict [("left", a),
            ("rest", .vlist [.vlist [op1, b], .vlist [op2, c]])])
          = .vlist [.vlist [simplify a, op1, simplify b], op2, simplify c])
    ∧ parseQuery "aa:1 OR bb:2 AND cc:3" = .ok c2Doc := by
  refine ⟨?_, fun n d x y z => rfl, ?_, ?_⟩
  · intro a b c
    simp only [simplify_leftRestNil, simplify_leftRest_fold, simpFoldL_cons2,
      simpFoldL_nil]
  · intro a b c op1 op2
    simp only [simplify_leftRest_fold, simpFoldL_cons2, simpFoldL_nil]
  · have p : parseQuery "aa:1 OR bb:2 AND cc:3" = .ok (astToEs c2Raw []) := by rfl
    rw [p, c2_lowers]

/-! ## Claim C1 -/

theorem strStartsWith_append (p q : String) : strStartsWith (p ++ q) p = true := by
  unfold strStartsWith
  rw [String.data_append, List.isPrefixOf_iff_prefix]
  exact List.prefix_append _ _

/-- Every rewritten field name begins with `path ++ "."`. -/
theorem prefixField_startsWith (path f : String) :
    strStartsWith (prefixField path f) (path ++ ".") = true := by
  unfold prefixField
  by_cases h : strStartsWith f (path ++ ".")
  · rw [if_pos h]; exact h
  · rw [if_neg h]
    exact strStartsWith_append (path ++ ".") f

/-- A field that already carries the prefix is left unchanged, so
re-prefixing is a no-op. -/
theorem prefixField_idem (path f : String) :
    prefixField path (prefixField path f) = prefixField path f := by
  have h := prefixField_startsWith path f
  show (if strStartsWith (prefixField path f) (path ++ ".") then prefixField path f
        else path ++ "." ++ prefixField path f) = prefixField path f
  rw [if_pos h]

theorem lookupKv_sizeOf {kvs : List (String × PyVal)} {k : String} {v : PyVal}
    (h : lookupKv kvs k = some v) : sizeOf v < 1 + sizeOf kvs := by
  induction kvs with
  | nil => simp [lookupKv] at h
  | cons kv t ih =>
    obtain ⟨k0, v0⟩ := kv
    rw [lookupKv] at h
    by_cases hk : k0 = k
    · rw [if_pos hk] at h
      cases h
      simp
      omega
    · rw [if_neg hk] at h
      have := ih h
      simp
      omega

mutual

/-- The property C1 claims of a query emitted inside a nested clause:
every field name occurring in `match`, `range` and `exists` sub-queries
begins with `path ++ "."`, recursing through the `must`, `should`,
`must_not` and `filter` bool clauses but not into inner `nested`
clauses. -/
def fieldsPrefOK (path : String) (q : PyVal) : Bool :=
  match q with
  | .vdict kvs =>
    (match lookupKv kvs "match" with
     | some (.vdict mkvs) => mkvs.all (fun kv => strStartsWith kv.1 (path ++ "."))
     | _ => true)
    && (match lookupKv kvs "range" with
        | some (.vdict rkvs) => rkvs.all (fun kv => strStartsWith kv.1 (path ++ "."))
        | _ => true)
    && (match lookupKv kvs "exists" with
        | some (.vdict ekvs) =>
          (match lookupKv ekvs "field" with
           | some (.str f) => strStartsWith f (path ++ ".")
           | _ => true)
        | _ => true)
    && (match hb : lookupKv kvs "bool" with
        | some (.vdict bkvs) => boolClausesPrefOK path bkvs
        | _ => true)
  | _ => true
termination_by sizeOf q
decreasing_by
  have h1 := lookupKv_sizeOf hb
  simp only [PyVal.vdict.sizeOf_spec] at h1 ⊢
  omega

def boolClausesPrefOK (path : String) : List (String × PyVal) → Bool
  | [] => true
  | (k, v) :: t =>
    (if k ∈ boolClauseKeys then clausePrefOK path v else true)
      && boolClausesPrefOK path t
termination_by kvs => sizeOf kvs

def clausePrefOK (path : String) (v : PyVal) : Bool :=
  match v with
  | .vlist qs => listPrefOK path qs
  | _ => true
termination_by sizeOf v

def listPrefOK (path : String) : List PyVal → Bool
  | [] => true
  | q :: t => fieldsPrefOK path q && listPrefOK path t
termination_by qs => sizeOf qs

end

theorem hasKey_false_lookup {kvs : List (String × PyVal)} {k : String}
    (h : hasKey kvs k = false) : lookupKv kvs k = none := by
  unfold hasKey at h
  rcases hl : lookupKv kvs k with _ | w
  · rfl
  · rw [hl] at h
    simp at h

/-- `fieldsPrefOK` on a dict having none of the four inspected keys. -/
theorem fieldsPrefOK_no_keys (path : String) (kvs : List (String × PyVal))
    (hm : lookupKv kvs "match" = none) (hr : lookupKv kvs "range" = none)
    (he : lookupKv kvs "exists" = none) (hb : lookupKv kvs "bool" = none) :
    fieldsPrefOK path (.vdict kvs) = true := by
  unfold fieldsPrefOK
  rw [hm, hr, he, hb]
  rfl

theorem prefixRangeKvs_all (path : String) (rkvs : List (String × PyVal)) :
    (prefixRangeKvs path rkvs).all (fun kv => strStartsWith kv.1 (path ++ ".")) = true := by
  induction rkvs with
  | nil => rfl
  | cons kv t ih =>
    obtain ⟨f, v⟩ := kv
    rw [prefixRangeKvs]
    simp only [List.all_cons, ih, Bool.and_true]
    exact prefixField_startsWith path f

theorem fieldsPrefOK_match_out (path pf : String) (v : PyVal)
    (h : strStartsWith pf (path ++ ".") = true) :
    fieldsPrefOK path (.vdict [("match", .vdict [(pf, v)])]) = true := by
  unfold fieldsPrefOK
  simp [lookupKv, h]

theorem fieldsPrefOK_range_out (path : String) (rkvs : List (String × PyVal)) :
    fieldsPrefOK path (.vdict [("range", .vdict (prefixRangeKvs path rkvs))]) = true := by
  unfold fieldsPrefOK
  simp [lookupKv, prefixRangeKvs_all]

theorem fieldsPrefOK_exists_out (path f : String) :
    fieldsPrefOK path
      (.vdict [("exists", .vdict [("field", .str (prefixField path f))])]) = true := by
  unfold fieldsPrefOK
  simp [lookupKv, prefixField_startsWith]

theorem fieldsPrefOK_bool_out (path : String) (bb : List (String × PyVal)) :
    fieldsPrefOK path (.vdict [("bool", .vdict bb)]) = boolClausesPrefOK path bb := by
  unfold fieldsPrefOK
  simp [lookupKv]

theorem fieldsPrefOK_err (path e : String) : fieldsPrefOK path (.err e) = true := by
  unfold fieldsPrefOK
  rfl

theorem listPrefOK_of_strs (path : String) (xs : List PyVal)
    (h : allStrings xs = true) : listPrefOK path xs = true := by
  induction xs with
  | nil => unfold listPrefOK; rfl
  | cons x t ih =>
    cases x <;> simp [allStrings] at h
    unfold listPrefOK
    rw [ih h]
    unfold fieldsPrefOK
    rfl

theorem allStrings_map_str {α : Type} (f : α → String) (xs : List α) :
    allStrings (xs.map (fun a => PyVal.str (f a))) = true := by
  induction xs with
  | nil => rfl
  | cons x t ih => simpa [allStrings] using ih

mutual

theorem pnf_fieldsPrefOK (path : String) (q : PyVal) :
    fieldsPrefOK path (prefixNestedFields q path) = true := by
  cases q with
  | vdict kvs =>
    unfold prefixNestedFields
    by_cases h1 : hasKey kvs "match" = true
    · rw [if_pos h1]
      rcases hg : getKv kvs "match" with s | nn | xs | mkvs | _ | e
      · exact fieldsPrefOK_err path _
      · exact fieldsPrefOK_err path _
      · exact fieldsPrefOK_err path _
      · rcases mkvs with _ | ⟨⟨f, v⟩, rest⟩
        · exact fieldsPrefOK_err path _
        · exact fieldsPrefOK_match_out path _ v (prefixField_startsWith path f)
      · exact fieldsPrefOK_err path _
      · exact fieldsPrefOK_err path _
    · rw [if_neg h1]
      by_cases h2 : hasKey kvs "range" = true
      · rw [if_pos h2]
        rcases hg : getKv kvs "range" with s | nn | xs | rkvs | _ | e
        · exact fieldsPrefOK_err path _
        · exact fieldsPrefOK_err path _
        · exact fieldsPrefOK_err path _
        · exact fieldsPrefOK_range_out path rkvs
        · exact fieldsPrefOK_err path _
        · exact fieldsPrefOK_err path _
      · rw [if_neg h2]
        by_cases h3 : hasKey kvs "exists" = true
        · rw [if_pos h3]
          rcases hg : getKv kvs "exists" with s | nn | xs | ekvs | _ | e
          · exact fieldsPrefOK_err path _
          · exact fieldsPrefOK_err path _
          · exact fieldsPrefOK_err path _
          · show fieldsPrefOK path
                (match lookupKv ekvs "field" with
                 | some (.str f) =>
                   .vdict [("exists", .vdict [("field", .str (prefixField path f))])]
                 | _ => .err "exists field") = true
            rcases hf : lookupKv ekvs "field" with _ | w
            · exact fieldsPrefOK_err path _
            · rcases w with s | nn | xs | wkvs | _ | e
              · exact fieldsPrefOK_exists_out path _
              · exact fieldsPrefOK_err path _
              · exact fieldsPrefOK_err path _
              · exact fieldsPrefOK_err path _
              · exact fieldsPrefOK_err path _
              · exact fieldsPrefOK_err path _
          · exact fieldsPrefOK_err path _
          · exact fieldsPrefOK_err path _
        · rw [if_neg h3]
          by_cases h4 : hasKey kvs "bool" = true
          · rw [if_pos h4]
            exact pnfFindBool_prefOK path kvs
          · rw [if_neg h4]
            rw [ite_self]
            exact fieldsPrefOK_no_keys path kvs
              (hasKey_false_lookup (by simpa using h1))
              (hasKey_false_lookup (by simpa using h2))
              (hasKey_false_lookup (by simpa using h3))
              (hasKey_false_lookup (by simpa using h4))
  | str s => unfold prefixNestedFields fieldsPrefOK; rfl
  | num n => unfold prefixNestedFields fieldsPrefOK; rfl
  | vlist xs => unfold prefixNestedFields fieldsPrefOK; rfl
  | pyNone => unfold prefixNestedFields fieldsPrefOK; rfl
  | err e => unfold prefixNestedFields fieldsPrefOK; rfl
termination_by sizeOf q

theorem pnfFindBool_prefOK (path : String) (kvs : List (String × PyVal)) :
    fieldsPrefOK path (pnfFindBool kvs path) = true := by
  cases kvs with
  | nil => unfold pnfFindBool; exact fieldsPrefOK_err path _
  | cons kv t =>
    obtain ⟨k, v⟩ := kv
    unfold pnfFindBool
    by_cases hk : k = "bool"
    · rw [if_pos hk]
      rcases v with s | nn | xs | bkvs | _ | e
      · exact fieldsPrefOK_err path _
      · exact fieldsPrefOK_err path _
      · exact fieldsPrefOK_err path _
      · rw [fieldsPrefOK_bool_out]
        exact pnfBoolKvs_prefOK path bkvs
      · exact fieldsPrefOK_err path _
      · exact fieldsPrefOK_err path _
    · rw [if_neg hk]
      exact pnfFindBool_prefOK path t
termination_by sizeOf kvs

theorem pnfBoolKvs_prefOK (path : String) (bkvs : List (String × PyVal)) :
    boolClausesPrefOK path (pnfBoolKvs bkvs path) = true := by
  cases bkvs with
  | nil => unfold pnfBoolKvs boolClausesPrefOK; rfl
  | cons kv t =>
    obtain ⟨k, v⟩ := kv
    unfold pnfBoolKvs boolClausesPrefOK
    by_cases hk : k ∈ boolClauseKeys
    · rw [if_pos hk, if_pos hk, pnfClause_prefOK path v, pnfBoolKvs_prefOK path t]
      rfl
    · rw [if_neg hk, pnfBoolKvs_prefOK path t]
      rfl
termination_by sizeOf bkvs

theorem pnfClause_prefOK (path : String) (v : PyVal) :
    clausePrefOK path (pnfClause v path) = true := by
  cases v with
  | vlist qs =>
    unfold pnfClause clausePrefOK
    exact pnfList_prefOK path qs
  | str s =>
    unfold pnfClause clausePrefOK
    exact listPrefOK_of_strs path _ (allStrings_map_str _ _)
  | vdict kvs =>
    unfold pnfClause clausePrefOK
    exact listPrefOK_of_strs path _ (allStrings_map_str _ _)
  | num n => unfold pnfClause clausePrefOK; rfl
  | pyNone => unfold pnfClause clausePrefOK; rfl
  | err e => unfold pnfClause clausePrefOK; rfl
termination_by sizeOf v

theorem pnfList_prefOK (path : String) (qs : List PyVal) :
    listPrefOK path (pnfList qs path) = true := by
  cases qs with
  | nil => unfold pnfList listPrefOK; rfl
  | cons q t =>
    unfold pnfList listPrefOK
    rw [pnf_fieldsPrefOK path q, pnfList_prefOK path t]
    rfl
termination_by sizeOf qs

end

/-- C1: in every emitted nested clause `{"nested": {"path": P, "query":
Q}}`, every field name occurring in Q's `match`, `range` and `exists`
sub-queries (recursing through the bool clauses `must`, `should`,
`must_not`, `filter`, but not into inner nested clauses) begins with
`P ++ "."`: `create_nested_query` emits exactly the prefix-rewritten
query, the rewrite establishes the prefix property on every query, and a
rewritten field name always carries the prefix. -/
theorem C1_nested_fields_prefixed :
    (∀ (path : String) (q : PyVal),
      fieldsPrefOK path (prefixNestedFields q path) = true)
    ∧ (∀ (path : String) (q : PyVal),
        createNestedQuery path q
          = .vdict [("nested", .vdict
              [("path", .str path), ("query", prefixNestedFields q path)])])
    ∧ (∀ path f : String,
        strStartsWith (prefixField path f) (path ++ ".") = true) :=
  ⟨pnf_fieldsPrefOK, fun path q => rfl, prefixField_startsWith⟩

/-! ## Claim C9 -/

theorem prefixRangeKvs_idem (path : String) (rkvs : List (String × PyVal)) :
    prefixRangeKvs path (prefixRangeKvs path rkvs) = prefixRangeKvs path rkvs := by
  induction rkvs with
  | nil => rfl
  | cons kv t ih =>
    obtain ⟨f, v⟩ := kv
    simp [prefixRangeKvs, prefixField_idem, ih]

theorem pnf_err (path e : String) :
    prefixNestedFields (.err e) path = .err e := by
  unfold prefixNestedFields; rfl

theorem pnf_str (path s : String) :
    prefixNestedFields (.str s) path = .str s := by
  unfold prefixNestedFields; rfl

theorem pnf_out_match (path pf : String) (v : PyVal) :
    prefixNestedFields (.vdict [("match", .vdict [(pf, v)])]) path
      = .vdict [("match", .vdict [(prefixField path pf, v)])] := by
  unfold prefixNestedFields
  simp [hasKey, lookupKv, getKv]

theorem pnf_out_range (path : String) (rkvs : List (String × PyVal)) :
    prefixNestedFields (.vdict [("range", .vdict rkvs)]) path
      = .vdict [("range", .vdict (prefixRangeKvs path rkvs))] := by
  unfold prefixNestedFields
  simp [hasKey, lookupKv, getKv]

theorem pnf_out_exists (path f : String) :
    prefixNestedFields (.vdict [("exists", .vdict [("field", .str f)])]) path
      = .vdict [("exists", .vdict [("field", .str (prefixField path f))])] := by
  unfold prefixNestedFields
  simp [hasKey, lookupKv, getKv]

theorem pnf_out_bool (path : String) (bkvs : List (String × PyVal)) :
    prefixNestedFields (.vdict [("bool", .vdict bkvs)]) path
      = .vdict [("bool", .vdict (pnfBoolKvs bkvs path))] := by
  unfold prefixNestedFields pnfFindBool
  simp [hasKey, lookupKv, getKv]

theorem pnf_out_passthrough (path : String) (kvs : List (String × PyVal))
    (h1 : ¬hasKey kvs "match" = true) (h2 : ¬hasKey kvs "range" = true)
    (h3 : ¬hasKey kvs "exists" = true) (h4 : ¬hasKey kvs "bool" = true) :
    prefixNestedFields (.vdict kvs) path = .vdict kvs := by
  unfold prefixNestedFields
  rw [if_neg h1, if_neg h2, if_neg h3, if_neg h4, ite_self]

theorem pnfList_strs (path : String) (xs : List PyVal)
    (h : allStrings xs = true) : pnfList xs path = xs := by
  induction xs with
  | nil => unfold pnfList; rfl
  | cons x t ih =>
    cases x <;> simp [allStrings] at h
    unfold pnfList
    rw [pnf_str, ih h]

theorem pnfBoolKvs_nil (path : String) : pnfBoolKvs [] path = [] := by
  rw [pnfBoolKvs.eq_def]

theorem pnfBoolKvs_cons (path k : String) (v : PyVal) (t : List (String × PyVal)) :
    pnfBoolKvs ((k, v) :: t) path
      = (k, if k ∈ boolClauseKeys then pnfClause v path else v) :: pnfBoolKvs t path := by
  rw [pnfBoolKvs.eq_def]

theorem pnfList_nil (path : String) : pnfList [] path = [] := by
  rw [pnfList.eq_def]

theorem pnfList_cons (path : String) (q : PyVal) (t : List PyVal) :
    pnfList (q :: t) path = prefixNestedFields q path :: pnfList t path := by
  rw [pnfList.eq_def]

theorem pnfClause_vlist (path : String) (qs : List PyVal) :
    pnfClause (.vlist qs) path = .vlist (pnfList qs path) := by
  rw [pnfClause.eq_def]

theorem pnfClause_str (path s : String) :
    pnfClause (.str s) path
      = .vlist (s.data.map (fun c => PyVal.str (String.mk [c]))) := by
  rw [pnfClause.eq_def]

theorem pnfClause_vdictKeys (path : String) (kvs : List (String × PyVal)) :
    pnfClause (.vdict kvs) path = .vlist (kvs.map (fun kv => PyVal.str kv.1)) := by
  rw [pnfClause.eq_def]

theorem pnfClause_num (path : String) (n : Int) :
    pnfClause (.num n) path = .err "TypeError: clause not iterable" := by
  rw [pnfClause.eq_def]

theorem pnfClause_none (path : String) :
    pnfClause .pyNone path = .err "TypeError: clause not iterable" := by
  rw [pnfClause.eq_def]

theorem pnfClause_err (path e : String) :
    pnfClause (.err e) path = .err "TypeError: clause not iterable" := by
  rw [pnfClause.eq_def]

mutual

theorem pnf_idem (path : String) (q : PyVal) :
    prefixNestedFields (prefixNestedFields q path) path
      = prefixNestedFields q path := by
  cases q with
  | vdict kvs =>
    by_cases h1 : hasKey kvs "match" = true
    · have hfirst : prefixNestedFields (.vdict kvs) path
          = match getKv kvs "match" with
            | .vdict ((f, v) :: _) =>
              .vdict [("match", .vdict [(prefixField path f, v)])]
            | _ => .err "match body" := by
        unfold prefixNestedFields
        rw [if_pos h1]
      rw [hfirst]
      rcases hg : getKv kvs "match" with s | nn | xs | mkvs | _ | e
      · exact pnf_err path _
      · exact pnf_err path _
      · exact pnf_err path _
      · rcases mkvs with _ | ⟨⟨f, v⟩, rest⟩
        · exact pnf_err path _
        · rw [pnf_out_match, prefixField_idem]
      · exact pnf_err path _
      · exact pnf_err path _
    · by_cases h2 : hasKey kvs "range" = true
      · have hfirst : prefixNestedFields (.vdict kvs) path
            = match getKv kvs "range" with
              | .vdict rkvs => .vdict [("range", .vdict (prefixRangeKvs path rkvs))]
              | _ => .err "range body" := by
          unfold prefixNestedFields
          rw [if_neg h1, if_pos h2]
        rw [hfirst]
        rcases hg : getKv kvs "range" with s | nn | xs | rkvs | _ | e
        · exact pnf_err path _
        · exact pnf_err path _
        · exact pnf_err path _
        · rw [pnf_out_range, prefixRangeKvs_idem]
        · exact pnf_err path _
        · exact pnf_err path _
      · by_cases h3 : hasKey kvs "exists" = true
        · have hfirst : prefixNestedFields (.vdict kvs) path
              = match getKv kvs "exists" with
                | .vdict ekvs =>
                  (match lookupKv ekvs "field" with
                   | some (.str f) =>
                     .vdict [("exists", .vdict [("field", .str (prefixField path f))])]
                   | _ => .err "exists field")
                | _ => .err "exists body" := by
            unfold prefixNestedFields
            rw [if_neg h1, if_neg h2, if_pos h3]
          rw [hfirst]
          rcases hg : getKv kvs "exists" with s | nn | xs | ekvs | _ | e
          · exact pnf_err path _
          · exact pnf_err path _
          · exact pnf_err path _
          · show prefixNestedFields
                (match lookupKv ekvs "field" with
                 | some (.str f) =>
                   .vdict [("exists", .vdict [("field", .str (prefixField path f))])]
                 | _ => .err "exists field") path
              = (match lookupKv ekvs "field" with
                 | some (.str f) =>
                   .vdict [("exists", .vdict [("field", .str (prefixField path f))])]
                 | _ => .err "exists field")
            rcases hf : lookupKv ekvs "field" with _ | w
            · exact pnf_err path _
            · rcases w with s | nn | xs | wkvs | _ | e
              · rw [pnf_out_exists, prefixField_idem]
              · exact pnf_err path _
              · exact pnf_err path _
              · exact pnf_err path _
              · exact pnf_err path _
              · exact pnf_err path _
          · exact pnf_err path _
          · exact pnf_err path _
        · by_cases h4 : hasKey kvs "bool" = true
          · have hfirst : prefixNestedFields (.vdict kvs) path
                = pnfFindBool kvs path := by
              unfold prefixNestedFields
              rw [if_neg h1, if_neg h2, if_neg h3, if_pos h4]
            rw [hfirst]
            exact pnfFindBool_idem path kvs
          · rw [pnf_out_passthrough path kvs h1 h2 h3 h4,
              pnf_out_passthrough path kvs h1 h2 h3 h4]
  | str s => rw [pnf_str, pnf_str]
  | num n =>
    have h : prefixNestedFields (.num n) path = .num n := by
      unfold prefixNestedFields; rfl
    rw [h, h]
  | vlist xs =>
    have h : prefixNestedFields (.vlist xs) path = .vlist xs := by
      unfold prefixNestedFields; rfl
    rw [h, h]
  | pyNone =>
    have h : prefixNestedFields .pyNone path = .pyNone := by
      unfold prefixNestedFields; rfl
    rw [h, h]
  | err e => rw [pnf_err, pnf_err]
termination_by sizeOf q

theorem pnfFindBool_idem (path : String) (kvs : List (String × PyVal)) :
    prefixNestedFields (pnfFindBool kvs path) path = pnfFindBool kvs path := by
  cases kvs with
  | nil =>
    unfold pnfFindBool
    exact pnf_err path _
  | cons kv t =>
    obtain ⟨k, v⟩ := kv
    unfold pnfFindBool
    by_cases hk : k = "bool"
    · rw [if_pos hk]
      rcases v with s | nn | xs | bkvs | _ | e
      · exact pnf_err path _
      · exact pnf_err path _
      · exact pnf_err path _
      · rw [pnf_out_bool, pnfBoolKvs_idem]
      · exact pnf_err path _
      · exact pnf_err path _
    · rw [if_neg hk]
      exact pnfFindBool_idem path t
termination_by sizeOf kvs

theorem pnfBoolKvs_idem (path : String) (bkvs : List (String × PyVal)) :
    pnfBoolKvs (pnfBoolKvs bkvs path) path = pnfBoolKvs bkvs path := by
  cases bkvs with
  | nil => rw [pnfBoolKvs_nil, pnfBoolKvs_nil]
  | cons kv t =>
    obtain ⟨k, v⟩ := kv
    rw [pnfBoolKvs_cons]
    by_cases hk : k ∈ boolClauseKeys
    · rw [if_pos hk, pnfBoolKvs_cons, if_pos hk, pnfClause_idem path v,
        pnfBoolKvs_idem path t]
    · rw [if_neg hk, pnfBoolKvs_cons, if_neg hk, pnfBoolKvs_idem path t]
termination_by sizeOf bkvs

theorem pnfClause_idem (path : String) (v : PyVal) :
    pnfClause (pnfClause v path) path = pnfClause v path := by
  cases v with
  | vlist qs =>
    rw [pnfClause_vlist, pnfClause_vlist, pnfList_idem path qs]
  | str s =>
    rw [pnfClause_str, pnfClause_vlist, pnfList_strs path _ (allStrings_map_str _ _)]
  | vdict kvs =>
    rw [pnfClause_vdictKeys, pnfClause_vlist,
      pnfList_strs path _ (allStrings_map_str _ _)]
  | num n => rw [pnfClause_num, pnfClause_err]
  | pyNone => rw [pnfClause_none, pnfClause_err]
  | err e => rw [pnfClause_err, pnfClause_err]
termination_by sizeOf v

theorem pnfList_idem (path : String) (qs : List PyVal) :
    pnfList (pnfList qs path) path = pnfList qs path := by
  cases qs with
  | nil => rw [pnfList_nil, pnfList_nil]
  | cons q t =>
    rw [pnfList_cons, pnfList_cons, pnf_idem path q, pnfList_idem path t]
termination_by sizeOf qs

end

/-- C9: nested path prefixing is idempotent: applying the field-prefix
rewrite with path `P` twice yields the same result as applying it once,
because a field name already beginning with `P ++ "."` is left
unchanged by `prefix_field`. -/
theorem C9_prefixing_idempotent :
    (∀ (path : String) (q : PyVal),
      prefixNestedFields (prefixNestedFields q path) path
        = prefixNestedFields q path)
    ∧ (∀ path f : String,
        prefixField path (prefixField path f) = prefixField path f)
    ∧ (∀ path f : String, prefixField path ((path ++ ".") ++ f) = (path ++ ".") ++ f) := by
  refine ⟨pnf_idem, prefixField_idem, ?_⟩
  intro path f
  show (if strStartsWith ((path ++ ".") ++ f) (path ++ ".") then (path ++ ".") ++ f
        else path ++ "." ++ ((path ++ ".") ++ f)) = (path ++ ".") ++ f
  rw [if_pos (strStartsWith_append (path ++ ".") f)]

/-! ## Claim C8 -/

theorem lookupKv_update_self (l : List (String × PyVal)) (k : String) (v : PyVal) :
    lookupKv (pyDictUpdate l k v) k = some v := by
  induction l with
  | nil =>
    show (if k = k then some v else none) = some v
    rw [if_pos rfl]
  | cons kv t ih =>
    obtain ⟨k0, v0⟩ := kv
    unfold pyDictUpdate
    by_cases hk : k0 = k
    · rw [if_pos hk]
      show (if k0 = k then some v else lookupKv t k) = some v
      rw [if_pos hk]
    · rw [if_neg hk]
      show (if k0 = k then some v0 else lookupKv (pyDictUpdate t k v) k) = some v
      rw [if_neg hk, ih]

theorem lookupKv_update_ne (l : List (String × PyVal)) (k k' : String) (v : PyVal)
    (h : k' ≠ k) : lookupKv (pyDictUpdate l k v) k' = lookupKv l k' := by
  induction l with
  | nil =>
    show (if k = k' then some v else none) = none
    rw [if_neg (fun he => h he.symm)]
  | cons kv t ih =>
    obtain ⟨k0, v0⟩ := kv
    unfold pyDictUpdate
    by_cases hk : k0 = k
    · rw [if_pos hk]
      show (if k0 = k' then some v else lookupKv t k')
        = if k0 = k' then some v0 else lookupKv t k'
      rw [if_neg (fun he => h (he.symm.trans hk)), if_neg (fun he => h (he.symm.trans hk))]
    · rw [if_neg hk]
      show (if k0 = k' then some v0 else lookupKv (pyDictUpdate t k v) k')
        = if k0 = k' then some v0 else lookupKv t k'
      by_cases hk' : k0 = k'
      · rw [if_pos hk', if_pos hk']
      · rw [if_neg hk', if_neg hk', ih]

theorem qsOptStep_lookup_ne (d : List (String × String))
    (opts : List (String × PyVal)) (key k : String) (h : k ≠ key) :
    lookupKv (qsOptStep d opts key) k = lookupKv opts k := by
  cases hd : dlookup d key with
  | none => unfold qsOptStep; simp only [hd]
  | some v =>
    unfold qsOptStep
    simp only [hd]
    by_cases hf : key = "fields"
    · rw [if_pos hf]
      cases hsp : splitFieldsVal v with
      | nil => simp only [hsp]
      | cons p pt =>
        simp only [hsp]
        exact lookupKv_update_ne _ _ _ _ h
    · rw [if_neg hf]
      exact lookupKv_update_ne _ _ _ _ h

theorem qsOptsFold_lookup_notin (d : List (String × String)) (k : String) :
    ∀ (keys : List String) (acc : List (String × PyVal)), k ∉ keys →
      lookupKv (qsOptsFold d acc keys) k = lookupKv acc k := by
  intro keys
  induction keys with
  | nil => intro acc _; rfl
  | cons key t ih =>
    intro acc hk
    show lookupKv (qsOptsFold d (qsOptStep d acc key) t) k = lookupKv acc k
    rw [ih _ (fun hmem => hk (List.mem_cons_of_mem key hmem)),
      qsOptStep_lookup_ne d acc key k (fun he => hk (he ▸ List.mem_cons_self key t))]

theorem qsOptsFold_append (d : List (String × String)) (l1 l2 : List String)
    (acc : List (String × PyVal)) :
    qsOptsFold d acc (l1 ++ l2) = qsOptsFold d (qsOptsFold d acc l1) l2 := by
  induction l1 generalizing acc with
  | nil => rfl
  | cons key t ih =>
    show qsOptsFold d (qsOptStep d acc key) (t ++ l2) = _
    exact ih _

theorem qsOptsFold_nochange (d : List (String × String)) :
    ∀ (keys : List String) (acc : List (String × PyVal)),
      (∀ k, k ∈ keys → dlookup d k = none) →
      qsOptsFold d acc keys = acc := by
  intro keys
  induction keys with
  | nil => intro acc _; rfl
  | cons key t ih =>
    intro acc h
    show qsOptsFold d (qsOptStep d acc key) t = acc
    have hstep : qsOptStep d acc key = acc := by
      unfold qsOptStep
      rw [h key (List.mem_cons_self key t)]
    rw [hstep, ih _ (fun k hk => h k (List.mem_cons_of_mem key hk))]

theorem qsOptStep_congr (d1 d2 : List (String × String))
    (opts : List (String × PyVal)) (key : String)
    (h : dlookup d1 key = dlookup d2 key) :
    qsOptStep d1 opts key = qsOptStep d2 opts key := by
  unfold qsOptStep
  rw [h]

theorem qsOptsFold_congr (d1 d2 : List (String × String)) :
    ∀ (keys : List String) (acc : List (String × PyVal)),
      (∀ k, k ∈ keys → dlookup d1 k = dlookup d2 k) →
      qsOptsFold d1 acc keys = qsOptsFold d2 acc keys := by
  intro keys
  induction keys with
  | nil => intro acc _; rfl
  | cons key t ih =>
    intro acc h
    show qsOptsFold d1 (qsOptStep d1 acc key) t = qsOptsFold d2 (qsOptStep d2 acc key) t
    rw [qsOptStep_congr d1 d2 acc key (h key (List.mem_cons_self key t))]
    exact ih _ (fun k hk => h k (List.mem_cons_of_mem key hk))

theorem pyDictUpdate_append_of_none (l : List (String × PyVal)) (k : String)
    (v : PyVal) (h : lookupKv l k = none) : pyDictUpdate l k v = l ++ [(k, v)] := by
  induction l with
  | nil => rfl
  | cons kv t ih =>
    obtain ⟨k0, v0⟩ := kv
    rw [lookupKv] at h
    by_cases hk : k0 = k
    · rw [if_pos hk] at h
      cases h
    · rw [if_neg hk] at h
      rw [pyDictUpdate, if_neg hk, List.cons_append, ih h]

theorem pyMergeKvs_lookup_none (k : String) :
    ∀ (opts q : List (String × PyVal)), lookupKv q k = none →
      lookupKv opts k = none → lookupKv (pyMergeKvs q opts) k = none := by
  intro opts
  induction opts with
  | nil => intro q hq _; exact hq
  | cons kv t ih =>
    intro q hq ho
    obtain ⟨k0, v0⟩ := kv
    rw [lookupKv] at ho
    by_cases hk : k0 = k
    · rw [if_pos hk] at ho
      cases ho
    · rw [if_neg hk] at ho
      show lookupKv (pyMergeKvs (pyDictUpdate q k0 v0) t) k = none
      exact ih _ (by rw [lookupKv_update_ne _ _ _ _ (fun he => hk he.symm)]; exact hq) ho

theorem pyMergeKvs_append_single (q opts : List (String × PyVal)) (k : String)
    (v : PyVal) :
    pyMergeKvs q (opts ++ [(k, v)]) = pyDictUpdate (pyMergeKvs q opts) k v := by
  unfold pyMergeKvs
  rw [List.foldl_append]
  rfl

/-- The first six recognised option keys (everything except `fields`). -/
def qsPre6 : List String :=
  ["default_field", "default_operator", "analyzer", "quote_analyzer",
   "allow_leading_wildcard", "auto_generate_synonyms_phrase_query"]

theorem qsKeys_split : QUERY_STRING_OPTION_KEYS = qsPre6 ++ ["fields"] := rfl

/-- C8: (a) with a `fields` directive present, the `query_string` body's
`fields` entry is the comma-split, trimmed, empties-dropped list of names,
present exactly when that list is non-empty; (b) directive keys outside the
recognised option set never influence the output; (c) when no recognised
option is present the body is exactly `{"query": TEXT}`. -/
theorem C8_fields_directive :
    (∀ (d : List (String × String)) (t v : String),
      dlookup d "fields" = some v →
      jsonGet2 (applyQueryStringOptions d [("query", .str t)])
          "query_string" "fields"
        = (if splitFieldsVal v = [] then none
           else some (.vlist ((splitFieldsVal v).map PyVal.str))))
    ∧ (∀ (d1 d2 : List (String × String)) (q : List (String × PyVal)),
        (∀ k, k ∈ QUERY_STRING_OPTION_KEYS → dlookup d1 k = dlookup d2 k) →
        applyQueryStringOptions d1 q = applyQueryStringOptions d2 q)
    ∧ (∀ (d : List (String × String)) (t : String),
        (∀ k, k ∈ QUERY_STRING_OPTION_KEYS → dlookup d k = none) →
        applyQueryStringOptions d [("query", .str t)]
          = .vdict [("query_string", .vdict [("query", .str t)])]) := by
  refine ⟨?_, ?_, ?_⟩
  · intro d t v hv
    have hpre : lookupKv (qsOptsFold d [] qsPre6) "fields" = none := by
      rw [qsOptsFold_lookup_notin d "fields" qsPre6 [] (by decide)]
      rfl
    have hsplit : qsOptsFold d [] QUERY_STRING_OPTION_KEYS
        = qsOptStep d (qsOptsFold d [] qsPre6) "fields" := by
      rw [qsKeys_split, qsOptsFold_append]
      rfl
    have hstep : qsOptStep d (qsOptsFold d [] qsPre6) "fields"
        = (match splitFieldsVal v with
           | [] => qsOptsFold d [] qsPre6
           | pf => pyDictUpdate (qsOptsFold d [] qsPre6) "fields"
               (.vlist (pf.map PyVal.str))) := by
      unfold qsOptStep
      rw [hv]
      rfl
    unfold applyQueryStringOptions
    rw [hsplit, hstep]
    cases hsp : splitFieldsVal v with
    | nil =>
      simp only [hsp]
      cases h6 : qsOptsFold d [] qsPre6 with
      | nil => rfl
      | cons kv rest =>
        rw [h6] at hpre
        show lookupKv (pyMergeKvs [("query", PyVal.str t)] (kv :: rest)) "fields"
          = none
        exact pyMergeKvs_lookup_none "fields" (kv :: rest)
          [("query", PyVal.str t)] rfl hpre
    | cons p pt =>
      simp only [hsp]
      rw [pyDictUpdate_append_of_none _ _ _ hpre,
        if_neg (List.cons_ne_nil p pt)]
      cases h6 : qsOptsFold d [] qsPre6 with
      | nil =>
        simp only [List.nil_append]
        rfl
      | cons kv rest =>
        simp only [List.cons_append]
        show lookupKv
            (pyMergeKvs [("query", PyVal.str t)]
              (kv :: (rest ++ [("fields",
                PyVal.vlist (List.map PyVal.str (p :: pt)))]))) "fields"
          = some (PyVal.vlist (List.map PyVal.str (p :: pt)))
        rw [show kv :: (rest ++ [("fields",
              PyVal.vlist (List.map PyVal.str (p :: pt)))])
            = (kv :: rest) ++ [("fields",
              PyVal.vlist (List.map PyVal.str (p :: pt)))] from rfl,
          pyMergeKvs_append_single, lookupKv_update_self]
  · intro d1 d2 q h
    unfold applyQueryStringOptions
    rw [qsOptsFold_congr d1 d2 QUERY_STRING_OPTION_KEYS [] h]
  · intro d t h
    unfold applyQueryStringOptions
    rw [qsOptsFold_nochange d QUERY_STRING_OPTION_KEYS [] h]

theorem C8_fields_directive_witness :
    jsonGet2 (applyQueryStringOptions [("fields", " a, b ,,c")]
        [("query", .str "x")]) "query_string" "fields"
      = some (.vlist [.str "a", .str "b", .str "c"])
    ∧ applyQueryStringOptions [("fields", "q"), ("junk", "z")]
        [("query", .str "t")]
      = applyQueryStringOptions [("junk2", "w"), ("fields", "q")]
        [("query", .str "t")]
    ∧ applyQueryStringOptions [("junk", "z")] [("query", .str "t")]
      = .vdict [("query_string", .vdict [("query", .str "t")])] := by
  refine ⟨?_, ?_, ?_⟩
  · have h := C8_fields_directive.1 [("fields", " a, b ,,c")] "x" " a, b ,,c" rfl
    rw [h]
    rfl
  · exact C8_fields_directive.2.1 _ _ _ (by decide)
  · exact C8_fields_directive.2.2 _ "t" (by decide)

/-! ## Claim C10 -/

/-- Group bodies whose leaves are scalar strings and whose structure is
built from `NOT` and `AND`/`OR`/`~` nodes: exactly the shapes
`apply_group` rewrites into `[field, ":", leaf]` leaves. -/
def grpOK : PyVal → Bool
  | .str _ => true
  | .vlist [.str "NOT", x] => grpOK x
  | .vlist [a, .str "AND", b] => grpOK a && grpOK b
  | .vlist [a, .str "OR", b] => grpOK a && grpOK b
  | .vlist [a, .str "~", b] => grpOK a && grpOK b
  | _ => false
termination_by g => sizeOf g

/-- Is this value the literal token `"NOT"`? -/
def isNotTok : PyVal → Bool
  | .str "NOT" => true
  | _ => false

/-- Is this value the empty list? -/
def isEmptyList : PyVal → Bool
  | .vlist [] => true
  | _ => false

/-- Is this value the string `t`? -/
def pvIsStr : PyVal → String → Bool
  | .str s, t => s == t
  | _, _ => false

/-- ASTs none of whose nodes lowers to a `query_string` clause:
`field:value` and `_exists_` matches, ranges, `NOT` and `AND`/`OR`/`~`
compositions, grouped matches over `grpOK` bodies, and nested nodes
(both the `[path, ">", sub]` list form and the `{path, query}` dict
form) over such ASTs.  The dict discriminators mirror the if-chain of
`process_expr` exactly. -/
def noQS : PyVal → Bool
  | .vlist [a, b] =>
    if isNotTok a then noQS b
    else if isEmptyList b then noQS a
    else false
  | .vlist [a, b, c] =>
    if pvIsStr b ":" then true
    else if pvIsStr b ">" then noQS c
    else if pvIsStr b "~" then noQS a && noQS c
    else if pvIsStr b "AND" then noQS a && noQS c
    else if pvIsStr b "OR" then noQS a && noQS c
    else false
  | .vdict kvs =>
    if hasKey kvs "path" && hasKey kvs "query" then
      (match hq : lookupKv kvs "query" with
       | some q => noQS q
       | none => false)
    else if hasKey kvs "first" && hasKey kvs "rest" then false
    else if hasKey kvs "field" && hasKey kvs "group" then
      grpOK (getKv kvs "group")
    else if hasKey kvs "field" && hasKey kvs "range" then true
    else false
  | _ => false
termination_by e => sizeOf e
decreasing_by
  all_goals
    first
      | (simp; omega)
      | (have h1 := lookupKv_sizeOf hq
         simp only [PyVal.vdict.sizeOf_spec] at h1 ⊢
         omega)

theorem isNotTok_eq {a : PyVal} (h : isNotTok a = true) : a = .str "NOT" := by
  unfold isNotTok at h
  split at h
  · rfl
  · cases h

theorem isEmptyList_eq {a : PyVal} (h : isEmptyList a = true) : a = .vlist [] := by
  unfold isEmptyList at h
  split at h
  · rfl
  · cases h

theorem pvIsStr_eq {a : PyVal} {t : String} (h : pvIsStr a t = true) :
    a = .str t := by
  unfold pvIsStr at h
  split at h
  · rename_i u v
    exact congrArg PyVal.str (eq_of_beq h)
  · cases h

/-- `apply_group` turns a `grpOK` group body into a `noQS` AST. -/
theorem grpOK_applyGroup (f g : PyVal) (h : grpOK g = true) :
    noQS (applyGroup f g) = true := by
  rw [grpOK.eq_def] at h
  split at h
  · simp only [applyGroup]
    rw [noQS.eq_def]
    rfl
  · rename_i x
    simp only [applyGroup]
    rw [noQS.eq_def]
    exact grpOK_applyGroup f x h
  · rename_i a b
    rw [Bool.and_eq_true] at h
    simp only [applyGroup]
    rw [noQS.eq_def]
    show (noQS (applyGroup f a) && noQS (applyGroup f b)) = true
    rw [grpOK_applyGroup f a h.1, grpOK_applyGroup f b h.2]
    rfl
  · rename_i a b
    rw [Bool.and_eq_true] at h
    simp only [applyGroup]
    rw [noQS.eq_def]
    show (noQS (applyGroup f a) && noQS (applyGroup f b)) = true
    rw [grpOK_applyGroup f a h.1, grpOK_applyGroup f b h.2]
    rfl
  · rename_i a b
    rw [Bool.and_eq_true] at h
    simp only [applyGroup]
    rw [noQS.eq_def]
    show (noQS (applyGroup f a) && noQS (applyGroup f b)) = true
    rw [grpOK_applyGroup f a h.1, grpOK_applyGroup f b h.2]
    rfl
  · cases h
termination_by sizeOf g

theorem processExpr_dirIndep (n : Nat) :
    ∀ (d1 d2 : List (String × String)) (e : PyVal),
      noQS e = true → processExpr n d1 e = processExpr n d2 e := by
  induction n with
  | zero => intro d1 d2 e _; rfl
  | succ n ih =>
    intro d1 d2 e h
    rw [noQS.eq_def] at h
    split at h
    · -- e = .vlist [a, b]
      rename_i a b
      by_cases hn : isNotTok a = true
      · rw [if_pos hn] at h
        rw [isNotTok_eq hn]
        exact congrArg (fun x => createBoolQuery (.str "NOT") [x]) (ih d1 d2 b h)
      · rw [if_neg hn] at h
        by_cases he : isEmptyList b = true
        · rw [if_pos he] at h
          rw [isEmptyList_eq he]
          simp only [processExpr]
          split
          · exact absurd rfl hn
          · exact ih d1 d2 a h
        · rw [if_neg he] at h
          cases h
    · -- e = .vlist [a, b, c]
      rename_i a b c
      by_cases h1 : pvIsStr b ":" = true
      · rw [pvIsStr_eq h1]
        rfl
      · rw [if_neg h1] at h
        by_cases h2 : pvIsStr b ">" = true
        · rw [if_pos h2] at h
          rw [pvIsStr_eq h2]
          cases a with
          | str path =>
            exact congrArg (fun x => createNestedQuery path x) (ih d1 d2 c h)
          | num m => rfl
          | vlist xs => rfl
          | vdict kvs => rfl
          | pyNone => rfl
          | err m => rfl
        · rw [if_neg h2] at h
          by_cases h3 : pvIsStr b "~" = true
          · rw [if_pos h3] at h
            rw [Bool.and_eq_true] at h
            rw [pvIsStr_eq h3]
            show PyVal.vdict [("bool", PyVal.vdict [("must",
                PyVal.vlist [processExpr n d1 a, processExpr n d1 c])])]
              = PyVal.vdict [("bool", PyVal.vdict [("must",
                PyVal.vlist [processExpr n d2 a, processExpr n d2 c])])]
            rw [ih d1 d2 a h.1, ih d1 d2 c h.2]
          · rw [if_neg h3] at h
            by_cases h4 : pvIsStr b "AND" = true
            · rw [if_pos h4] at h
              rw [Bool.and_eq_true] at h
              rw [pvIsStr_eq h4]
              show createBoolQuery (.str "AND")
                  [processExpr n d1 a, processExpr n d1 c]
                = createBoolQuery (.str "AND")
                  [processExpr n d2 a, processExpr n d2 c]
              rw [ih d1 d2 a h.1, ih d1 d2 c h.2]
            · rw [if_neg h4] at h
              by_cases h5 : pvIsStr b "OR" = true
              · rw [if_pos h5] at h
                rw [Bool.and_eq_true] at h
                rw [pvIsStr_eq h5]
                show createBoolQuery (.str "OR")
                    [processExpr n d1 a, processExpr n d1 c]
                  = createBoolQuery (.str "OR")
                    [processExpr n d2 a, processExpr n d2 c]
                rw [ih d1 d2 a h.1, ih d1 d2 c h.2]
              · rw [if_neg h5] at h
                cases h
    · -- e = .vdict kvs
      rename_i kvs
      by_cases hpq : (hasKey kvs "path" && hasKey kvs "query") = true
      · rw [if_pos hpq] at h
        simp only [processExpr]
        rw [if_pos hpq, if_pos hpq]
        split at h
        · rename_i q heq
          have hge : getKv kvs "query" = q := by
            unfold getKv
            rw [heq]
          rw [hge]
          cases hgp : getKv kvs "path" with
          | str path =>
            exact congrArg (fun x => createNestedQuery path x) (ih d1 d2 q h)
          | num m => rfl
          | vlist xs => rfl
          | vdict kvs2 => rfl
          | pyNone => rfl
          | err m => rfl
        · cases h
      · rw [if_neg hpq] at h
        by_cases hfr : (hasKey kvs "first" && hasKey kvs "rest") = true
        · rw [if_pos hfr] at h
          cases h
        · rw [if_neg hfr] at h
          by_cases hfg : (hasKey kvs "field" && hasKey kvs "group") = true
          · rw [if_pos hfg] at h
            simp only [processExpr]
            rw [if_neg hpq, if_neg hpq, if_neg hfr, if_neg hfr,
              if_pos hfg, if_pos hfg]
            exact ih d1 d2 _ (grpOK_applyGroup _ _ h)
          · simp only [processExpr]
            rw [if_neg hpq, if_neg hpq, if_neg hfr, if_neg hfr,
              if_neg hfg, if_neg hfg]
    · -- every other shape lowers without consulting the directives
      cases h

/-- C10: the directive map influences only `query_string` synthesis.  For
every AST whose simplified form is built only from `field:value` and
`_exists_` matches, ranges, `NOT`, `AND`/`OR`/`~` compositions, grouped
matches over scalar-leaf bodies, and nested nodes over them (`noQS`),
`ast_to_es` yields the same document under any two directive maps; the
same holds for `process_expr` itself at every fuel. -/
theorem C10_directive_independence :
    (∀ (n : Nat) (d1 d2 : List (String × String)) (e : PyVal),
       noQS e = true → processExpr n d1 e = processExpr n d2 e)
    ∧ (∀ (ast : PyVal) (d1 d2 : List (String × String)),
       noQS (simplify ast) = true → astToEs ast d1 = astToEs ast d2) := by
  refine ⟨processExpr_dirIndep, ?_⟩
  intro ast d1 d2 h
  cases hf : pyFalsy ast with
  | true =>
    unfold astToEs
    rw [hf]
    rw [if_pos rfl, if_pos rfl]
  | false =>
    rw [astToEs_not_falsy ast d1 hf, astToEs_not_falsy ast d2 hf]
    exact processExpr_dirIndep peFuel d1 d2 _ h

theorem C10_directive_independence_witness :
    noQS (.vlist [.str "author", .str ":", .str "strindberg"]) = true
    ∧ processExpr 3 [("fields", "a,b")]
        (.vlist [.str "author", .str ":", .str "strindberg"])
      = processExpr 3 [] (.vlist [.str "author", .str ":", .str "strindberg"])
    ∧ noQS (simplify (.vlist [.str "author", .str ":", .str "strindberg"])) = true
    ∧ astToEs (.vlist [.str "author", .str ":", .str "strindberg"])
        [("fields", "a,b"), ("default_operator", "AND")]
      = astToEs (.vlist [.str "author", .str ":", .str "strindberg"]) [] := by
  have h1 : noQS (.vlist [.str "author", .str ":", .str "strindberg"]) = true := by
    rw [noQS.eq_def]
    rfl
  have h2 : noQS (simplify (.vlist [.str "author", .str ":", .str "strindberg"]))
      = true := by
    rw [simplify_list3, simplify_str, simplify_str, simplify_str]
    exact h1
  exact ⟨h1, C10_directive_independence.1 3 _ _ _ h1, h2,
    C10_directive_independence.2 _ _ _ h2⟩

/-! ## Claims C6 and C7: parse failure behaviour -/

/-- C6 (counterexample): the empty input does not yield `{}`; the
grammar's `expr` rule requires at least one token, so `parse_query("")`
fails with the "expecting one of" surface re-raised as the
InvalidQuery format message. -/
theorem C6_empty_input_fails :
    parseQuery "" = .error
      "Invalid query format. Query must start with a field name or keyword. Got: " :=
  rfl

/-- C6 (amended): parsing the empty string fails with InvalidQuery, and
the `{}` result arises one level lower: `ast_to_es` maps every falsy AST
(`None`, `""`, `[]`) to the empty object. -/
theorem C6_empty_amended :
    parseQuery "" = .error
      "Invalid query format. Query must start with a field name or keyword. Got: "
    ∧ (∀ d, astToEs .pyNone d = .vdict [])
    ∧ (∀ d, astToEs (.str "") d = .vdict [])
    ∧ (∀ d, astToEs (.vlist []) d = .vdict []) := by
  refine ⟨rfl, ?_, ?_, ?_⟩ <;>
    intro d <;>
    simp [astToEs, pyFalsy]

/-- C7: on a parser failure, `parse_query` fails with exactly one of the
two message forms, selected by whether the parser diagnostic contains
"expecting one of". -/
theorem C7_error_forms (s detail : String) (h : rawParse s = .error detail) :
    parseQuery s = .error
      (if strContains detail "expecting one of" then
        "Invalid query format. Query must start with a field name or keyword. Got: "
          ++ s
      else "Invalid query string: " ++ s ++ ". " ++ detail) := by
  unfold parseQuery
  simp only [h]
  by_cases hc : strContains detail "expecting one of" = true
  · rw [if_pos hc, if_pos hc]
  · rw [if_neg hc, if_neg hc]

theorem C7_error_forms_witness :
    rawParse ">invalid"
      = .error "expecting one of: ( nested_query basic_match keyword"
    ∧ parseQuery ">invalid" = .error
        "Invalid query format. Query must start with a field name or keyword. Got: >invalid" := by
  have h : rawParse ">invalid"
      = .error "expecting one of: ( nested_query basic_match keyword" := rfl
  refine ⟨h, ?_⟩
  rw [C7_error_forms ">invalid" _ h]
  rfl
